import Mathlib

/-!
# Product catalogue service (`index.js`)

A shallow embedding of the request handlers of `index.js` and of the
validator `validarProducto`, followed by the properties established
about them.

Conventions of the embedding:

* a JavaScript string is the list of its UTF-16 code units, so `length`
  is the list length, exactly as `String.prototype.length`;
* a JavaScript number is either a finite double, written as an integer
  mantissa times a power of two, or one of `Infinity`, `-Infinity`, `NaN`;
* a value of the request body is any value `JSON.parse` can build, plus
  `NaN` (which a JavaScript caller of the validator can pass);
* an exception thrown by the code is an `Except.error`;
* the product file is the list of records `leerProductos` returns; a
  missing file is the empty list; a file that does not parse, and a failure
  of the file system, are outside the model;
* the identifier of a record is an integer-valued number, and sums of
  identifiers round as doubles do;
* an array holds at most `2 ^ 32 - 1` elements; limits that an engine adds
  of its own (stack depth of a spread call, memory) are outside the model.
-/

namespace Tarea2

/-! ## JavaScript values -/

/-- A UTF-16 code unit. -/
abbrev Unidad := Nat

/-- A JavaScript string: the sequence of its UTF-16 code units. -/
abbrev Cadena := List Unidad

/-- The code units of a Lean string whose characters all lie in the basic
multilingual plane (used to write string literals). -/
def cadena (s : String) : Cadena := s.toList.map Char.toNat

/-- A JavaScript number. `fin m e` is the finite double `m * 2 ^ e`. -/
inductive Numero where
  | fin (mant : Int) (exp : Int)
  | inf (neg : Bool)
  | nan
deriving DecidableEq, Repr

mutual
/-- A JavaScript value as found in a parsed JSON document. -/
inductive Valor where
  | nulo
  | bool (b : Bool)
  | num (x : Numero)
  | str (s : Cadena)
  | arr (xs : Elementos)
  | obj (ps : Propiedades)
/-- The elements of an array. -/
inductive Elementos where
  | nil
  | cons (v : Valor) (vs : Elementos)
/-- The properties of an object, in order. -/
inductive Propiedades where
  | nil
  | cons (clave : Cadena) (v : Valor) (ps : Propiedades)
end

deriving instance DecidableEq for Valor, Elementos, Propiedades

/-- The results of `typeof` that a JSON value can have. -/
inductive Tipo where
  | undefined
  | object
  | boolean
  | number
  | string
deriving DecidableEq, Repr

/-- The operator `typeof` applied to a property that may be absent (`none` is
`undefined`). -/
def tipoDe : Option Valor → Tipo
  | none => .undefined
  | some .nulo => .object
  | some (.bool _) => .boolean
  | some (.num _) => .number
  | some (.str _) => .string
  | some (.arr _) => .object
  | some (.obj _) => .object

/-- The test `!v`: true exactly on `undefined`, `null`, `false`, `0`, `-0`, `NaN`
and the empty string. -/
def esFalsy : Option Valor → Bool
  | none => true
  | some .nulo => true
  | some (.bool b) => !b
  | some (.num (.fin m _)) => m == 0
  | some (.num (.inf _)) => false
  | some (.num .nan) => true
  | some (.str s) => s.isEmpty
  | some (.arr _) => false
  | some (.obj _) => false

/-- The comparison `x <= 0` on numbers: a finite `m * 2 ^ e` is at most zero
exactly when `m` is; `-Infinity` is, `Infinity` and `NaN` are not. -/
def Numero.menorIgualCero : Numero → Bool
  | .fin m _ => decide (m ≤ 0)
  | .inf neg => neg
  | .nan => false

/-- The exceptions the modelled code can throw. -/
inductive Excepcion where
  | typeError
  | rangeError
deriving DecidableEq, Repr

/-- White space and line terminators, the code units `String.prototype.trim`
strips. -/
def esEspacio (c : Unidad) : Bool :=
  c == 0x09 || c == 0x0A || c == 0x0B || c == 0x0C || c == 0x0D || c == 0x20 ||
  c == 0xA0 || c == 0x1680 || (0x2000 ≤ c && c ≤ 0x200A) || c == 0x2028 ||
  c == 0x2029 || c == 0x202F || c == 0x205F || c == 0x3000 || c == 0xFEFF

/-- The method `String.prototype.trim`. -/
def trim (s : Cadena) : Cadena :=
  ((s.dropWhile esEspacio).reverse.dropWhile esEspacio).reverse

/-- The call `v.trim()`: only a string has the method; on `undefined` and on
`null` the property access throws, on every other JSON value `v.trim` is
not a function. -/
def llamarTrim : Option Valor → Except Excepcion Cadena
  | some (.str s) => .ok (trim s)
  | _ => .error .typeError

/-! ## The validator -/

/-- The request body: each of the four fields is absent or holds a value. -/
structure Cuerpo where
  nombre : Option Valor
  precio : Option Valor
  descripcion : Option Valor
  disponible : Option Valor
deriving DecidableEq

/-- The test `typeof precio !== 'number' || precio <= 0`. -/
def precioInvalido : Valor → Bool
  | .num x => x.menorIgualCero
  | _ => true

/-- The test `typeof descripcion !== 'string' || descripcion.length < 10`. -/
def descripcionInvalida : Valor → Bool
  | .str s => decide (s.length < 10)
  | _ => true

def msgNombreObligatorio : String := "El campo nombre es obligatorio"
def msgNombreVacio : String := "El campo nombre no puede estar vacío"
def msgPrecioInvalido : String := "El precio debe ser un número positivo mayor a cero"
def msgPrecioObligatorio : String := "El campo precio es obligatorio"
def msgDescripcionCorta : String := "La descripción debe tener un mínimo de 10 caracteres"
def msgDescripcionObligatoria : String := "El campo descripción es obligatorio"
def msgDisponible : String := "El campo disponible debe ser un valor booleano (true o false)"

/-- The function `validarProducto(producto, esActualizacion)`. -/
def validarProducto (producto : Cuerpo) (esActualizacion : Bool) :
    Except Excepcion (List String) := do
  let mut errores : List String := []
  if !esActualizacion && esFalsy producto.nombre then
    errores := errores ++ [msgNombreObligatorio]
  if producto.nombre.isSome then
    if (← llamarTrim producto.nombre) == [] then
      errores := errores ++ [msgNombreVacio]
  match producto.precio with
  | some precio =>
    if precioInvalido precio then
      errores := errores ++ [msgPrecioInvalido]
  | none =>
    if !esActualizacion then
      errores := errores ++ [msgPrecioObligatorio]
  match producto.descripcion with
  | some descripcion =>
    if descripcionInvalida descripcion then
      errores := errores ++ [msgDescripcionCorta]
  | none =>
    if !esActualizacion then
      errores := errores ++ [msgDescripcionObligatoria]
  if producto.disponible.isSome && tipoDe producto.disponible != Tipo.boolean then
    errores := errores ++ [msgDisponible]
  return errores

/-! ## Numbers used as identifiers

Identifiers are integer-valued JavaScript numbers. The sum `m + 1` is the
exact sum rounded to the nearest double, ties to the even significand. -/

/-- Number of binary digits of `n`, counted with at most `fuel` halvings. -/
def bitsAux : Nat → Nat → Nat
  | 0, _ => 0
  | fuel + 1, n => if n = 0 then 0 else bitsAux fuel (n / 2) + 1

/-- Number of binary digits of `n` (`n` halvings always suffice). -/
def numBits (n : Nat) : Nat := bitsAux n n

/-- The double nearest to the integer `z` (round to nearest, ties to even):
the significand keeps the 53 leading binary digits. Meant for magnitudes
below `2 ^ 1024`, where the result is finite. -/
def redondear (z : Int) : Int :=
  let a := z.natAbs
  let e := numBits a - 53
  let q := a / 2 ^ e
  let r := a % 2 ^ e
  let q' := if 2 * r > 2 ^ e ∨ (2 * r = 2 ^ e ∧ q % 2 = 1) then q + 1 else q
  z.sign * ((q' * 2 ^ e : Nat) : Int)

/-- The expression `m + 1` on an integer-valued number `m`. -/
def sumaUno (m : Int) : Int := redondear (m + 1)

/-- The call `Math.max(x, ...xs)` on integer-valued numbers. -/
def mathMax (x : Int) (xs : List Int) : Int := xs.foldl max x

/-! ## Records and the product file -/

/-- A stored record. The identifier is an integer-valued number; every other
property is absent (`none`) or holds a value. -/
structure Producto where
  id : Int
  nombre : Option Valor
  precio : Option Valor
  descripcion : Option Valor
  disponible : Option Valor
  fecha_ingreso : Option Valor
deriving DecidableEq

mutual
/-- What `JSON.parse(JSON.stringify(v))` gives back: a number that is not
finite is written as `null`, everything else is kept. -/
def Valor.json : Valor → Valor
  | .nulo => .nulo
  | .bool b => .bool b
  | .num (.fin m e) => .num (.fin m e)
  | .num (.inf _) => .nulo
  | .num .nan => .nulo
  | .str s => .str s
  | .arr xs => .arr xs.json
  | .obj ps => .obj ps.json
/-- The round trip on the elements of an array. -/
def Elementos.json : Elementos → Elementos
  | .nil => .nil
  | .cons v vs => .cons v.json vs.json
/-- The round trip on the properties of an object. -/
def Propiedades.json : Propiedades → Propiedades
  | .nil => .nil
  | .cons k v ps => .cons k v.json ps.json
end

/-- The round trip `JSON.parse(JSON.stringify(p))` on a record. -/
def Producto.json (p : Producto) : Producto :=
  { id := p.id
    nombre := p.nombre.map Valor.json
    precio := p.precio.map Valor.json
    descripcion := p.descripcion.map Valor.json
    disponible := p.disponible.map Valor.json
    fecha_ingreso := p.fecha_ingreso.map Valor.json }

/-- The file `productos.json`: missing, or the array of records its text
parses to. -/
abbrev Archivo := Option (List Producto)

/-- The function `leerProductos`: a missing file reads as the empty array. -/
def leerProductos : Archivo → List Producto
  | none => []
  | some productos => productos

/-- The function `guardarProductos`: the file now holds the JSON text of the
array. -/
def guardarProductos (productos : List Producto) : Archivo :=
  some (productos.map Producto.json)

/-- The method `Array.prototype.push` with one argument: an array cannot grow
beyond `2 ^ 32 - 1` elements, the attempt throws a `RangeError`. -/
def push (productos : List Producto) (p : Producto) : Except Excepcion (List Producto) :=
  if productos.length + 1 > 4294967295 then .error .rangeError
  else .ok (productos ++ [p])

/-! ## The request handlers -/

/-- The response of a handler; a record in a response body has gone through
`JSON.stringify`. -/
inductive Respuesta where
  | lista (productos : List Producto)
  | producto (p : Producto)
  | creado (p : Producto)
  | actualizado (p : Producto)
  | eliminado (p : Producto)
  | datosInvalidos (detalles : List String)
  | noEncontrado
  | errorInterno
deriving DecidableEq

/-- The `try`/`catch` around the body of a handler: an exception gives the
response 500 and leaves the file as it was (every `throw` of the modelled
code happens before `guardarProductos`). -/
def responder (archivo : Archivo) (r : Except Excepcion (Respuesta × Archivo)) :
    Respuesta × Archivo :=
  match r with
  | .ok x => x
  | .error _ => (.errorInterno, archivo)

/-- The identifier computed at `const nuevoId = ...`: 1 for the empty array,
otherwise `Math.max(...productos.map(p => p.id)) + 1`. -/
def nuevoId : List Producto → Int
  | [] => 1
  | p :: resto => sumaUno (mathMax p.id (resto.map (·.id)))

/-- The object literal `nuevoProducto`; `nombre` is the value of
`req.body.nombre.trim()`, `ahora` that of `new Date().toISOString()`. -/
def nuevoProducto (id : Int) (nombre ahora : Cadena) (body : Cuerpo) : Producto :=
  { id := id
    nombre := some (.str nombre)
    precio := body.precio
    descripcion := body.descripcion
    disponible := if body.disponible.isSome then body.disponible else some (.bool true)
    fecha_ingreso := some (.str ahora) }

/-- The handler `app.post('/productos')`. `ahora` is the value of
`new Date().toISOString()`. -/
def postProductos (ahora : Cadena) (body : Cuerpo) (archivo : Archivo) :
    Respuesta × Archivo :=
  responder archivo (do
    let errores ← validarProducto body false
    if errores.length > 0 then
      return (.datosInvalidos errores, archivo)
    let productos := leerProductos archivo
    let id := nuevoId productos
    let nombre ← llamarTrim body.nombre
    let nuevo := nuevoProducto id nombre ahora body
    let productos ← push productos nuevo
    return (.creado nuevo.json, guardarProductos productos))

/-- The object literal `productoActualizado`: the properties of the stored
record, overwritten by those present in the body; `nombre` is the value of
`req.body.nombre.trim()` when `nombre` is present. -/
def productoActualizado (actual : Producto) (nombre : Option Cadena) (body : Cuerpo) :
    Producto :=
  { id := actual.id
    nombre :=
      match nombre with
      | some s => some (.str s)
      | none => actual.nombre
    precio := if body.precio.isSome then body.precio else actual.precio
    descripcion := if body.descripcion.isSome then body.descripcion else actual.descripcion
    disponible := if body.disponible.isSome then body.disponible else actual.disponible
    fecha_ingreso := actual.fecha_ingreso }

/-- The handler `app.put('/productos/:id')`. `id` is the result of
`parseInt(req.params.id)`: an integer, or `none` when it is not one. The
branch where `productos[indice]` is missing cannot be taken, `indice` being
an index `findIndex` returned. -/
def putProducto (id : Option Int) (body : Cuerpo) (archivo : Archivo) :
    Respuesta × Archivo :=
  responder archivo (do
    let productos := leerProductos archivo
    match productos.findIdx? (fun p => some p.id == id) with
    | none => return (.noEncontrado, archivo)
    | some indice =>
      let errores ← validarProducto body true
      if errores.length > 0 then
        return (.datosInvalidos errores, archivo)
      match productos[indice]? with
      | none => throw .typeError
      | some actual =>
        let nombre ←
          if body.nombre.isSome then (llamarTrim body.nombre).map some else pure none
        let actualizado := productoActualizado actual nombre body
        let productos := productos.set indice actualizado
        return (.actualizado actualizado.json, guardarProductos productos))

/-- The handler `app.delete('/productos/:id')`. `id` is as in `putProducto`,
and so is the branch of a missing `productos[indice]`. -/
def deleteProducto (id : Option Int) (archivo : Archivo) : Respuesta × Archivo :=
  responder archivo (do
    let productos := leerProductos archivo
    match productos.findIdx? (fun p => some p.id == id) with
    | none => return (.noEncontrado, archivo)
    | some indice =>
      match productos[indice]? with
      | none => throw .typeError
      | some productoEliminado =>
        let productos := productos.eraseIdx indice
        return (.eliminado productoEliminado.json, guardarProductos productos))

/-! ## Auxiliary definitions used in the statements -/

/-- The identifiers of the records of the file, in order. -/
def ids (archivo : Archivo) : List Int := (leerProductos archivo).map (·.id)

/-- A safe integer: `Number.isSafeInteger`, magnitude below `2 ^ 53`. -/
abbrev esSeguro (i : Int) : Prop := |i| < 9007199254740992

/-- The create requests of a list, served one after another: the responses
in order and the file left at the end. Each request is the pair of the
time stamp and the body. -/
def crearTodos : List (Cadena × Cuerpo) → Archivo → List Respuesta × Archivo
  | [], archivo => ([], archivo)
  | (ahora, body) :: resto, archivo =>
    let r := postProductos ahora body archivo
    let rs := crearTodos resto r.2
    (r.1 :: rs.1, rs.2)

/-- The identifier of the record in a 201 response. -/
def idCreado : Respuesta → Option Int
  | .creado p => some p.id
  | _ => none

/-- The numbers `1, 2, ..., n` as identifiers. -/
def unoHasta (n : Nat) : List Int := (List.range' 1 n).map Int.ofNat

/-- A record with the given identifier and valid fields. -/
def registro (id : Int) : Producto :=
  { id := id
    nombre := some (.str (cadena "Pen"))
    precio := some (.num (.fin 3 (-1)))
    descripcion := some (.str (cadena "Blue ink pen"))
    disponible := some (.bool true)
    fecha_ingreso := some (.str (cadena "2024-01-01T00:00:00.000Z")) }

/-- The body of the end-to-end scenario: `nombre` " Pen ", `precio` 1.5,
`descripcion` "Blue ink pen". -/
def cuerpoPen : Cuerpo :=
  { nombre := some (.str (cadena " Pen "))
    precio := some (.num (.fin 3 (-1)))
    descripcion := some (.str (cadena "Blue ink pen"))
    disponible := none }

/-- A time stamp. -/
def unaFecha : Cadena := cadena "2024-01-01T00:00:00.000Z"

/-- Whether evaluating `producto.nombre.trim()` in the validator throws: the
property is present and is not a string. -/
def nombreLanza : Option Valor → Bool
  | none => false
  | some (.str _) => false
  | some _ => true

/-- The messages the two checks on `nombre` add when neither throws. -/
def erroresNombre (nombre : Option Valor) (esActualizacion : Bool) : List String :=
  (if !esActualizacion && esFalsy nombre then [msgNombreObligatorio] else []) ++
  (match nombre with
   | some (.str s) => if trim s == [] then [msgNombreVacio] else []
   | _ => [])

/-- The messages the check on `precio` adds. -/
def erroresPrecio (precio : Option Valor) (esActualizacion : Bool) : List String :=
  match precio with
  | some v => if precioInvalido v then [msgPrecioInvalido] else []
  | none => if !esActualizacion then [msgPrecioObligatorio] else []

/-- The messages the check on `descripcion` adds. -/
def erroresDescripcion (descripcion : Option Valor) (esActualizacion : Bool) : List String :=
  match descripcion with
  | some v => if descripcionInvalida v then [msgDescripcionCorta] else []
  | none => if !esActualizacion then [msgDescripcionObligatoria] else []

/-- The messages the check on `disponible` adds. -/
def erroresDisponible (disponible : Option Valor) : List String :=
  if disponible.isSome && tipoDe disponible != Tipo.boolean then [msgDisponible] else []

/-- The rational number the finite double `m * 2 ^ e` denotes. -/
def Numero.valor (m e : Int) : ℚ := (m : ℚ) * (2 : ℚ) ^ e

/-- Strictly greater than zero, as a property of the number denoted: a finite
number whose value is above zero, or `Infinity`. -/
def Numero.positivo : Numero → Prop
  | .fin m e => 0 < Numero.valor m e
  | .inf neg => neg = false
  | .nan => False

/-- A finite number strictly greater than zero. -/
def Numero.finitoPositivo : Numero → Prop
  | .fin m e => 0 < Numero.valor m e
  | .inf _ => False
  | .nan => False

/-- At most zero, as a property of the number denoted: a finite number whose
value is at most zero, or `-Infinity`. -/
def Numero.noPositivo : Numero → Prop
  | .fin m e => Numero.valor m e ≤ 0
  | .inf neg => neg = true
  | .nan => False

/-- A request body with the three required fields valid and `disponible`
absent: `nombre` "Pen", the given `precio` and `descripcion`. -/
def cuerpoCon (precio : Valor) (descripcion : Cadena) : Cuerpo :=
  { nombre := some (.str (cadena "Pen"))
    precio := some precio
    descripcion := some (.str descripcion)
    disponible := none }

/-- The double written `0.01`: `5764607523034235 * 2 ^ (-59)`. -/
def unCentesimo : Numero := .fin 5764607523034235 (-59)

/-- A description of 10 code units. -/
def diezLetras : Cadena := cadena "0123456789"

/-- A description of 9 code units. -/
def nueveLetras : Cadena := cadena "012345678"

/-- The empty request body. -/
def cuerpoVacio : Cuerpo :=
  { nombre := none, precio := none, descripcion := none, disponible := none }

/-! ## The read handlers and the path parameter -/

/-- The handler `app.get('/productos')`. -/
def getProductos (archivo : Archivo) : Respuesta × Archivo :=
  responder archivo (do
    let productos := leerProductos archivo
    return (.lista (productos.map Producto.json), archivo))

/-- The handler `app.get('/productos/disponibles')`. -/
def getDisponibles (archivo : Archivo) : Respuesta × Archivo :=
  responder archivo (do
    let productos := leerProductos archivo
    let disponibles := productos.filter (fun p => p.disponible == some (.bool true))
    return (.lista (disponibles.map Producto.json), archivo))

/-- The handler `app.get('/productos/:id')`. `id` is the result of
`parseInt(req.params.id)`, as in `putProducto`. A record is an object, so
`!producto` holds only when `find` returned `undefined`. -/
def getProducto (id : Option Int) (archivo : Archivo) : Respuesta × Archivo :=
  responder archivo (do
    let productos := leerProductos archivo
    match productos.find? (fun p => some p.id == id) with
    | none => return (.noEncontrado, archivo)
    | some producto => return (.producto producto.json, archivo))

/-- The value of a decimal digit. -/
def digito (c : Unidad) : Option Nat :=
  if 48 ≤ c ∧ c ≤ 57 then some (c - 48) else none

/-- The value of a hexadecimal digit. -/
def digitoHex (c : Unidad) : Option Nat :=
  if 48 ≤ c ∧ c ≤ 57 then some (c - 48)
  else if 97 ≤ c ∧ c ≤ 102 then some (c - 87)
  else if 65 ≤ c ∧ c ≤ 70 then some (c - 55)
  else none

/-- The values of the longest prefix of `s` made of digits. -/
def prefijoDigitos (d : Unidad → Option Nat) : Cadena → List Nat
  | [] => []
  | c :: cs =>
    match d c with
    | some v => v :: prefijoDigitos d cs
    | none => []

/-- The integer a list of digit values denotes in the given base. -/
def valorDigitos (base : Nat) (ds : List Nat) : Nat :=
  ds.foldl (fun acc v => acc * base + v) 0

/-- What `parseInt` reads after the leading white space and the optional
sign. -/
def trasSigno (s : Cadena) : Cadena :=
  match s.dropWhile esEspacio with
  | 45 :: r => r
  | 43 :: r => r
  | t => t

/-- The radix and the digits `parseInt` reads: after `0x` or `0X` the radix
is 16, otherwise 10. -/
def leerDigitos : Cadena → Nat × List Nat
  | 48 :: 120 :: r => (16, prefijoDigitos digitoHex r)
  | 48 :: 88 :: r => (16, prefijoDigitos digitoHex r)
  | t => (10, prefijoDigitos digito t)

/-- The function `parseInt` with one argument: leading white space is
skipped, then an optional sign, then an optional `0x` or `0X`, then the
longest run of digits is read; what follows is ignored. No digit gives `NaN`
(`none`). The integer read is rounded to a double (taken exact, also beyond
20 digits); a result of infinite magnitude equals no integer (`none`). -/
def parseInt (s : Cadena) : Option Int :=
  let negativo := (s.dropWhile esEspacio).head? == some 45
  let leidos := leerDigitos (trasSigno s)
  if leidos.2 = [] then none
  else
    let n := redondear (valorDigitos leidos.1 leidos.2)
    if numBits n.toNat > 1024 then none
    else some (if negativo then -n else n)

/-- The decimal numeral of an integer: an optional minus sign followed by
one or more decimal digits, and nothing else. -/
def esNumeralDecimal (s : Cadena) : Bool :=
  match s with
  | 45 :: r => !r.isEmpty && r.all (fun c => (digito c).isSome)
  | r => !r.isEmpty && r.all (fun c => (digito c).isSome)

/-- The four properties of a record that `validarProducto` reads. -/
def Producto.cuerpo (p : Producto) : Cuerpo :=
  { nombre := p.nombre
    precio := p.precio
    descripcion := p.descripcion
    disponible := p.disponible }

/-- A finite number. -/
def Numero.esFinito : Numero → Prop
  | .fin _ _ => True
  | .inf _ => False
  | .nan => False

/-- The value of `req.body.nombre.trim()` when `nombre` is a string; `none`
when `nombre` is absent (or is not a string). -/
def nombreRecortado (body : Cuerpo) : Option Cadena :=
  match body.nombre with
  | some (.str s) => some (trim s)
  | _ => none

/-- A body with the required fields valid for the validator and the `precio`
`Infinity`, which the JSON text `1e999` parses to. -/
def cuerpoInfinito : Cuerpo := cuerpoCon (.num (.inf false)) (cadena "Blue ink pen")

/-- The record a create of `cuerpoInfinito` at `unaFecha` leaves in the file
when it gets the given identifier: its `precio` is `null`. -/
def registroNulo (id : Int) : Producto :=
  { id := id
    nombre := some (.str (cadena "Pen"))
    precio := some .nulo
    descripcion := some (.str (cadena "Blue ink pen"))
    disponible := some (.bool true)
    fecha_ingreso := some (.str unaFecha) }

/-- The body that holds `precio` 5 and nothing else. -/
def cuerpoPrecioCinco : Cuerpo := { cuerpoVacio with precio := some (.num (.fin 5 0)) }

/-- The file with the records 1 and 2. -/
def dosRegistros : Archivo := some [registro 1, registro 2]

/-- A record passes the validator as a complete record. -/
def Producto.valido (p : Producto) : Prop := validarProducto p.cuerpo false = .ok []

/-- The `precio` of a body, when it is a number, is finite. -/
def Cuerpo.precioFinito (body : Cuerpo) : Prop :=
  ∀ x, body.precio = some (.num x) → x.esFinito

/-! ## The validator: lemmas -/

theorem validarProducto_eq (p : Cuerpo) (e : Bool) :
    validarProducto p e =
      if nombreLanza p.nombre then .error .typeError
      else .ok (erroresNombre p.nombre e ++ erroresPrecio p.precio e ++
        erroresDescripcion p.descripcion e ++ erroresDisponible p.disponible) := by
  obtain ⟨n, pr, d, di⟩ := p
  cases hdi : (di.isSome && tipoDe di != Tipo.boolean) <;>
  cases e <;> rcases n with _ | (_ | _ | _ | s | _ | _) <;>
  rcases pr with _ | pr <;> rcases d with _ | d <;>
  simp [validarProducto, nombreLanza, erroresNombre, erroresPrecio, erroresDescripcion,
    erroresDisponible, hdi, llamarTrim, esFalsy, bind, Except.bind, pure, Except.pure] <;>
  (try split_ifs) <;> simp_all

theorem menorIgualCero_fin_iff (m e : Int) :
    (Numero.fin m e).menorIgualCero = true ↔ Numero.valor m e ≤ 0 := by
  unfold Numero.valor
  have h : (0 : ℚ) < (2 : ℚ) ^ e := by positivity
  simp only [Numero.menorIgualCero, decide_eq_true_eq, mul_nonpos_iff]
  constructor
  · intro hm
    right
    exact ⟨by exact_mod_cast hm, h.le⟩
  · rintro (⟨_, h2⟩ | ⟨h1, _⟩)
    · exact absurd h2 (not_le.mpr h)
    · exact_mod_cast h1

theorem erroresNombre_eq_nil_iff (n : Option Valor) (e : Bool) (hn : nombreLanza n = false) :
    erroresNombre n e = [] ↔
      ((∃ s, n = some (.str s) ∧ trim s ≠ []) ∨ (n = none ∧ e = true)) := by
  rcases n with _ | (_ | _ | _ | s | _ | _) <;> simp [nombreLanza] at hn <;>
    cases e <;> simp [erroresNombre, esFalsy]
  intro h hs
  exact h (by subst hs; rfl)

theorem erroresPrecio_eq_nil_iff (pr : Option Valor) (e : Bool) :
    erroresPrecio pr e = [] ↔
      ((∃ x, pr = some (.num x) ∧ x.menorIgualCero = false) ∨ (pr = none ∧ e = true)) := by
  rcases pr with _ | (_ | _ | x | s | _ | _) <;> cases e <;>
    simp [erroresPrecio, precioInvalido]

theorem erroresDescripcion_eq_nil_iff (d : Option Valor) (e : Bool) :
    erroresDescripcion d e = [] ↔
      ((∃ s, d = some (.str s) ∧ 10 ≤ s.length) ∨ (d = none ∧ e = true)) := by
  rcases d with _ | (_ | _ | x | s | _ | _) <;> cases e <;>
    simp [erroresDescripcion, descripcionInvalida]

theorem erroresDisponible_eq_nil_iff (d : Option Valor) :
    erroresDisponible d = [] ↔ (d = none ∨ ∃ b, d = some (.bool b)) := by
  rcases d with _ | (_ | _ | x | s | _ | _) <;> simp [erroresDisponible, tipoDe]

theorem valor_pos_iff (m e : Int) : 0 < Numero.valor m e ↔ 0 < m := by
  have h := menorIgualCero_fin_iff m e
  simp only [Numero.menorIgualCero, decide_eq_true_eq] at h
  rw [← not_le, ← not_le, h]

theorem menorIgualCero_eq_false_iff (x : Numero) (hx : x ≠ .nan) :
    x.menorIgualCero = false ↔ x.positivo := by
  cases x with
  | fin m e => simp [Numero.menorIgualCero, Numero.positivo, valor_pos_iff]
  | inf neg => cases neg <;> simp [Numero.menorIgualCero, Numero.positivo]
  | nan => exact absurd rfl hx

theorem menorIgualCero_iff_noPositivo (x : Numero) :
    x.menorIgualCero = true ↔ x.noPositivo := by
  cases x with
  | fin m e => exact menorIgualCero_fin_iff m e
  | inf neg => simp [Numero.menorIgualCero, Numero.noPositivo]
  | nan => simp [Numero.menorIgualCero, Numero.noPositivo]

theorem validarProducto_ok_iff (p : Cuerpo) (e : Bool) :
    (∃ errs, validarProducto p e = .ok errs) ↔
      (p.nombre = none ∨ ∃ s, p.nombre = some (.str s)) := by
  rw [validarProducto_eq]
  obtain ⟨n, pr, d, di⟩ := p
  rcases n with _ | (_ | _ | _ | s | _ | _) <;> simp [nombreLanza]

theorem nombreLanza_eq_false_iff (n : Option Valor) :
    nombreLanza n = false ↔ (n = none ∨ ∃ s, n = some (.str s)) := by
  rcases n with _ | (_ | _ | _ | s | _ | _) <;> simp [nombreLanza]

theorem mem_erroresNombre {n : Option Valor} {e : Bool} {m : String}
    (h : m ∈ erroresNombre n e) : m = msgNombreObligatorio ∨ m = msgNombreVacio := by
  unfold erroresNombre at h
  rcases List.mem_append.1 h with h | h
  · split_ifs at h
    · exact Or.inl (List.mem_singleton.1 h)
    · exact absurd h (List.not_mem_nil _)
  · split at h
    · split_ifs at h
      · exact Or.inr (List.mem_singleton.1 h)
      · exact absurd h (List.not_mem_nil _)
    · exact absurd h (List.not_mem_nil _)

theorem mem_erroresPrecio {pr : Option Valor} {e : Bool} {m : String}
    (h : m ∈ erroresPrecio pr e) : m = msgPrecioInvalido ∨ m = msgPrecioObligatorio := by
  unfold erroresPrecio at h
  split at h
  · split_ifs at h
    · exact Or.inl (List.mem_singleton.1 h)
    · exact absurd h (List.not_mem_nil _)
  · split_ifs at h
    · exact Or.inr (List.mem_singleton.1 h)
    · exact absurd h (List.not_mem_nil _)

theorem mem_erroresDescripcion {d : Option Valor} {e : Bool} {m : String}
    (h : m ∈ erroresDescripcion d e) :
    m = msgDescripcionCorta ∨ m = msgDescripcionObligatoria := by
  unfold erroresDescripcion at h
  split at h
  · split_ifs at h
    · exact Or.inl (List.mem_singleton.1 h)
    · exact absurd h (List.not_mem_nil _)
  · split_ifs at h
    · exact Or.inr (List.mem_singleton.1 h)
    · exact absurd h (List.not_mem_nil _)

theorem mem_erroresDisponible {di : Option Valor} {m : String}
    (h : m ∈ erroresDisponible di) : m = msgDisponible := by
  unfold erroresDisponible at h
  split_ifs at h
  · exact List.mem_singleton.1 h
  · exact absurd h (List.not_mem_nil _)

theorem mem_msgPrecioInvalido_iff (n pr d di : Option Valor) (e : Bool) :
    msgPrecioInvalido ∈ erroresNombre n e ++ erroresPrecio pr e ++ erroresDescripcion d e ++
        erroresDisponible di ↔ ∃ v, pr = some v ∧ precioInvalido v = true := by
  have h1 : msgPrecioInvalido ∉ erroresNombre n e := fun h => by
    rcases mem_erroresNombre h with h | h <;> exact absurd h (by decide)
  have h3 : msgPrecioInvalido ∉ erroresDescripcion d e := fun h => by
    rcases mem_erroresDescripcion h with h | h <;> exact absurd h (by decide)
  have h4 : msgPrecioInvalido ∉ erroresDisponible di := fun h =>
    absurd (mem_erroresDisponible h) (by decide)
  have h2 : msgPrecioInvalido ∈ erroresPrecio pr e ↔
      ∃ v, pr = some v ∧ precioInvalido v = true := by
    rcases pr with _ | v
    · simp only [false_and, exists_false, iff_false, reduceCtorEq]
      intro h
      unfold erroresPrecio at h
      split_ifs at h
      · exact absurd (List.mem_singleton.1 h) (by decide)
      · exact absurd h (List.not_mem_nil _)
    · by_cases hv : precioInvalido v = true <;> simp [erroresPrecio, hv]
  simp [h1, h2, h3, h4]

theorem mem_msgDescripcionCorta_iff (n pr d di : Option Valor) (e : Bool) :
    msgDescripcionCorta ∈ erroresNombre n e ++ erroresPrecio pr e ++ erroresDescripcion d e ++
        erroresDisponible di ↔ ∃ v, d = some v ∧ descripcionInvalida v = true := by
  have h1 : msgDescripcionCorta ∉ erroresNombre n e := fun h => by
    rcases mem_erroresNombre h with h | h <;> exact absurd h (by decide)
  have h3 : msgDescripcionCorta ∉ erroresPrecio pr e := fun h => by
    rcases mem_erroresPrecio h with h | h <;> exact absurd h (by decide)
  have h4 : msgDescripcionCorta ∉ erroresDisponible di := fun h =>
    absurd (mem_erroresDisponible h) (by decide)
  have h2 : msgDescripcionCorta ∈ erroresDescripcion d e ↔
      ∃ v, d = some v ∧ descripcionInvalida v = true := by
    rcases d with _ | v
    · simp only [false_and, exists_false, iff_false, reduceCtorEq]
      intro h
      unfold erroresDescripcion at h
      split_ifs at h
      · exact absurd (List.mem_singleton.1 h) (by decide)
      · exact absurd h (List.not_mem_nil _)
    · by_cases hv : descripcionInvalida v = true <;> simp [erroresDescripcion, hv]
  simp [h1, h2, h3, h4]

/-! ## Identifiers: lemmas -/

theorem bitsAux_le : ∀ (fuel n k : Nat), n < 2 ^ k → bitsAux fuel n ≤ k := by
  intro fuel
  induction fuel with
  | zero => intro n k _; simp [bitsAux]
  | succ fuel ih =>
    intro n k hn
    unfold bitsAux
    split_ifs with h0
    · exact Nat.zero_le _
    · cases k with
      | zero => omega
      | succ k =>
        have : n / 2 < 2 ^ k := by
          rw [pow_succ] at hn
          omega
        have := ih (n / 2) k this
        omega

theorem redondear_eq_self (z : Int) (h : z.natAbs ≤ 9007199254740992) : redondear z = z := by
  rcases Nat.lt_or_ge z.natAbs 9007199254740992 with hlt | hge
  · have hb : numBits z.natAbs - 53 = 0 := by
      have := bitsAux_le z.natAbs z.natAbs 53 (by norm_num; exact hlt)
      unfold numBits
      omega
    unfold redondear
    simp only [hb, pow_zero, Nat.div_one, Nat.mod_one, Nat.mul_one]
    exact Int.sign_mul_natAbs z
  · have heq : z.natAbs = 9007199254740992 := le_antisymm h hge
    rcases Int.natAbs_eq z with hz | hz <;> rw [heq] at hz <;> rw [hz] <;> decide

theorem sumaUno_eq (m : Int) (h1 : -9007199254740992 ≤ m + 1) (h2 : m + 1 ≤ 9007199254740992) :
    sumaUno m = m + 1 := by
  unfold sumaUno
  apply redondear_eq_self
  omega

theorem le_mathMax (x : Int) (xs : List Int) : x ≤ mathMax x xs := by
  unfold mathMax
  induction xs generalizing x with
  | nil => simp
  | cons y ys ih => exact le_trans (le_max_left x y) (ih (max x y))

theorem le_mathMax_of_mem (x : Int) (xs : List Int) : ∀ y ∈ xs, y ≤ mathMax x xs := by
  unfold mathMax
  induction xs generalizing x with
  | nil => simp
  | cons y ys ih =>
    intro z hz
    rcases List.mem_cons.1 hz with rfl | hz
    · exact le_trans (le_max_right x z) (le_mathMax (max x z) ys)
    · exact ih (max x y) z hz

theorem mathMax_mem (x : Int) (xs : List Int) : mathMax x xs ∈ x :: xs := by
  unfold mathMax
  induction xs generalizing x with
  | nil => simp
  | cons y ys ih =>
    rcases List.mem_cons.1 (ih (max x y)) with h | h
    · simp only [List.foldl_cons, h, List.mem_cons]
      rcases max_choice x y with hm | hm <;> rw [hm] <;> simp
    · simp only [List.foldl_cons, List.mem_cons]
      exact Or.inr (Or.inr h)

/-- The maximum is determined by the set of elements. -/
theorem mathMax_eq_of_isGreatest (x : Int) (xs : List Int) (m : Int) (hm : m ∈ x :: xs)
    (hle : ∀ i ∈ x :: xs, i ≤ m) : mathMax x xs = m := by
  apply le_antisymm (hle _ (mathMax_mem x xs))
  rcases List.mem_cons.1 hm with rfl | h
  · exact le_mathMax _ xs
  · exact le_mathMax_of_mem x xs m h

theorem nuevoId_eq_of_isGreatest (productos : List Producto) (m : Int)
    (hm : m ∈ productos.map (·.id)) (hle : ∀ i ∈ productos.map (·.id), i ≤ m) :
    nuevoId productos = sumaUno m := by
  cases productos with
  | nil => simp at hm
  | cons p resto =>
    simp only [nuevoId]
    rw [mathMax_eq_of_isGreatest p.id (resto.map (·.id)) m (by simpa using hm)
      (by simpa using hle)]

theorem exists_isGreatest (productos : List Producto) (h : productos ≠ []) :
    ∃ m, m ∈ productos.map (·.id) ∧ ∀ i ∈ productos.map (·.id), i ≤ m := by
  cases productos with
  | nil => exact absurd rfl h
  | cons p resto =>
    refine ⟨mathMax p.id (resto.map (·.id)), mathMax_mem p.id _, ?_⟩
    intro i hi
    rcases List.mem_cons.1 (show i ∈ p.id :: resto.map (·.id) from hi) with rfl | hi
    · exact le_mathMax _ _
    · exact le_mathMax_of_mem _ _ _ hi

/-! ## The file and the handlers: lemmas -/

@[simp] theorem Producto.json_id (p : Producto) : p.json.id = p.id := rfl

@[simp] theorem ids_guardarProductos (productos : List Producto) :
    ids (guardarProductos productos) = productos.map (·.id) := by
  simp [ids, guardarProductos, leerProductos, Function.comp_def]

theorem postProductos_eq (ahora : Cadena) (body : Cuerpo) (archivo : Archivo) :
    postProductos ahora body archivo =
      match validarProducto body false with
      | .error _ => (.errorInterno, archivo)
      | .ok (e :: es) => (.datosInvalidos (e :: es), archivo)
      | .ok [] =>
        match body.nombre with
        | some (.str s) =>
          if (leerProductos archivo).length + 1 > 4294967295 then (.errorInterno, archivo)
          else
            (.creado (nuevoProducto (nuevoId (leerProductos archivo)) (trim s) ahora body).json,
              guardarProductos (leerProductos archivo ++
                [nuevoProducto (nuevoId (leerProductos archivo)) (trim s) ahora body]))
        | _ => (.errorInterno, archivo) := by
  unfold postProductos
  cases hv : validarProducto body false with
  | error ex => rfl
  | ok errs =>
    cases errs with
    | cons e es => simp [responder, bind, Except.bind, pure, Except.pure]
    | nil =>
      rcases hn : body.nombre with _ | (_ | _ | _ | s | _ | _) <;>
        simp [responder, bind, Except.bind, pure, Except.pure, llamarTrim, push]
      split_ifs <;> rfl

theorem putProducto_eq (id : Option Int) (body : Cuerpo) (archivo : Archivo) :
    putProducto id body archivo =
      match (leerProductos archivo).findIdx? (fun p => some p.id == id) with
      | none => (.noEncontrado, archivo)
      | some indice =>
        match validarProducto body true with
        | .error _ => (.errorInterno, archivo)
        | .ok (e :: es) => (.datosInvalidos (e :: es), archivo)
        | .ok [] =>
          match (leerProductos archivo)[indice]? with
          | none => (.errorInterno, archivo)
          | some actual =>
            match body.nombre with
            | none =>
              (.actualizado (productoActualizado actual none body).json,
                guardarProductos
                  ((leerProductos archivo).set indice (productoActualizado actual none body)))
            | some (.str s) =>
              (.actualizado (productoActualizado actual (some (trim s)) body).json,
                guardarProductos ((leerProductos archivo).set indice
                  (productoActualizado actual (some (trim s)) body)))
            | some _ => (.errorInterno, archivo) := by
  unfold putProducto
  cases hi : (leerProductos archivo).findIdx? (fun p => some p.id == id) with
  | none => simp [hi, responder, pure, Except.pure]
  | some indice =>
    cases hv : validarProducto body true with
    | error ex => simp [hi, hv, responder, bind, Except.bind]
    | ok errs =>
      cases errs with
      | cons e es => simp [hi, hv, responder, bind, Except.bind, pure, Except.pure]
      | nil =>
        cases ha : (leerProductos archivo)[indice]? with
        | none => simp [hi, hv, ha, responder, bind, Except.bind, pure, Except.pure, throw,
            throwThe, MonadExceptOf.throw]
        | some actual =>
          rcases hn : body.nombre with _ | (_ | _ | _ | s | _ | _) <;>
            simp [hi, hv, ha, responder, bind, Except.bind, pure, Except.pure, llamarTrim,
              Except.map]

theorem deleteProducto_eq (id : Option Int) (archivo : Archivo) :
    deleteProducto id archivo =
      match (leerProductos archivo).findIdx? (fun p => some p.id == id) with
      | none => (.noEncontrado, archivo)
      | some indice =>
        match (leerProductos archivo)[indice]? with
        | none => (.errorInterno, archivo)
        | some eliminado =>
          (.eliminado eliminado.json,
            guardarProductos ((leerProductos archivo).eraseIdx indice)) := by
  unfold deleteProducto
  cases hi : (leerProductos archivo).findIdx? (fun p => some p.id == id) with
  | none => simp [hi, responder, pure, Except.pure]
  | some indice =>
    cases ha : (leerProductos archivo)[indice]? with
    | none => simp [hi, ha, responder, bind, Except.bind, pure, Except.pure, throw, throwThe,
        MonadExceptOf.throw]
    | some actual => simp [hi, ha, responder, bind, Except.bind, pure, Except.pure]

theorem productoActualizado_id (actual : Producto) (nombre : Option Cadena) (body : Cuerpo) :
    (productoActualizado actual nombre body).id = actual.id := rfl

theorem map_id_set (productos : List Producto) (indice : Nat) (actual nuevo : Producto)
    (ha : productos[indice]? = some actual) (hid : nuevo.id = actual.id) :
    (productos.set indice nuevo).map (·.id) = productos.map (·.id) := by
  induction productos generalizing indice with
  | nil => simp
  | cons p ps ih =>
    cases indice with
    | zero =>
      simp only [List.getElem?_cons_zero, Option.some.injEq] at ha
      simp [List.set, hid, ha]
    | succ k =>
      simp only [List.getElem?_cons_succ] at ha
      simp [List.set, ih k ha]

theorem ids_putProducto (id : Option Int) (body : Cuerpo) (archivo : Archivo) :
    ids (putProducto id body archivo).2 = ids archivo := by
  rw [putProducto_eq]
  split
  · rfl
  · split
    · rfl
    · rfl
    · split
      · rfl
      · rename_i actual ha
        split
        · rw [ids_guardarProductos]; exact map_id_set _ _ actual _ ha rfl
        · rw [ids_guardarProductos]; exact map_id_set _ _ actual _ ha rfl
        · rfl

theorem ids_deleteProducto_sublist (id : Option Int) (archivo : Archivo) :
    (ids (deleteProducto id archivo).2).Sublist (ids archivo) := by
  rw [deleteProducto_eq]
  split
  · exact List.Sublist.refl _
  · split
    · exact List.Sublist.refl _
    · rw [ids_guardarProductos]
      exact (List.eraseIdx_sublist _ _).map _

theorem postProductos_of_valido (ahora : Cadena) (body : Cuerpo) (archivo : Archivo)
    (hv : validarProducto body false = .ok []) :
    ∃ s, body.nombre = some (.str s) ∧
      postProductos ahora body archivo =
        if (leerProductos archivo).length + 1 > 4294967295 then (.errorInterno, archivo)
        else
          (.creado (nuevoProducto (nuevoId (leerProductos archivo)) (trim s) ahora body).json,
            guardarProductos (leerProductos archivo ++
              [nuevoProducto (nuevoId (leerProductos archivo)) (trim s) ahora body])) := by
  have hn : ∃ s, body.nombre = some (.str s) := by
    have h := hv
    rw [validarProducto_eq] at h
    rcases hb : body.nombre with _ | (_ | _ | _ | s | _ | _) <;>
      simp [hb, nombreLanza, erroresNombre, esFalsy] at h
    exact ⟨s, rfl⟩
  obtain ⟨s, hs⟩ := hn
  refine ⟨s, hs, ?_⟩
  rw [postProductos_eq, hv]
  simp only [hs]

theorem ids_postProductos (ahora : Cadena) (body : Cuerpo) (archivo : Archivo) :
    ids (postProductos ahora body archivo).2 = ids archivo ∨
      ids (postProductos ahora body archivo).2 =
        ids archivo ++ [nuevoId (leerProductos archivo)] := by
  rw [postProductos_eq]
  split
  · exact Or.inl rfl
  · exact Or.inl rfl
  · split
    · split_ifs
      · exact Or.inl rfl
      · right
        rw [ids_guardarProductos]
        simp [ids, nuevoProducto]
    · exact Or.inl rfl

theorem nuevoId_not_mem (productos : List Producto)
    (hseg : ∀ i ∈ productos.map (·.id), esSeguro i) :
    nuevoId productos ∉ productos.map (·.id) := by
  by_cases h : productos = []
  · subst h; simp
  · obtain ⟨m, hm, hle⟩ := exists_isGreatest productos h
    have hs := hseg m hm
    unfold esSeguro at hs
    rw [abs_lt] at hs
    rw [nuevoId_eq_of_isGreatest productos m hm hle, sumaUno_eq m (by omega) (by omega)]
    intro hmem
    have := hle _ hmem
    omega

theorem idCreado_postProductos (ahora : Cadena) (body : Cuerpo) (archivo : Archivo)
    (p : Producto) (h : (postProductos ahora body archivo).1 = .creado p) :
    p.id = nuevoId (leerProductos archivo) ∧
      (leerProductos archivo).length < 4294967295 ∧
      validarProducto body false = .ok [] ∧
      (postProductos ahora body archivo).2 =
        some ((leerProductos archivo).map Producto.json ++ [p]) := by
  rw [postProductos_eq] at h ⊢
  split at h
  · cases h
  · cases h
  · rename_i hv
    split at h
    · split_ifs at h with hlen
      simp only [Respuesta.creado.injEq] at h
      subst h
      refine ⟨rfl, by omega, hv, ?_⟩
      simp [hlen, guardarProductos]
    · cases h

theorem map_id_eraseIdx_findIdx (l : List Producto) (m : Int) (i : Nat)
    (h : l.findIdx? (fun p => some p.id == some m) = some i) :
    (l.eraseIdx i).map (·.id) = (l.map (·.id)).erase m := by
  induction l generalizing i with
  | nil => simp at h
  | cons p ps ih =>
    rw [List.findIdx?_cons] at h
    by_cases hp : p.id = m
    · simp [hp] at h
      subst h
      simp [hp]
    · simp [hp] at h
      obtain ⟨j, hj, rfl⟩ := h
      simp [List.erase_cons, hp, ih j hj]

theorem unoHasta_succ (k : Nat) : unoHasta (k + 1) = unoHasta k ++ [((k : Int) + 1)] := by
  simp [unoHasta, List.range'_concat, add_comm]

theorem mem_unoHasta (k : Nat) (i : Int) : i ∈ unoHasta k ↔ 1 ≤ i ∧ i ≤ k := by
  simp only [unoHasta, List.mem_map, List.mem_range'_1]
  constructor
  · rintro ⟨a, ⟨h1, h2⟩, rfl⟩
    simp only [Int.ofNat_eq_coe]
    omega
  · rintro ⟨h1, h2⟩
    refine ⟨i.toNat, by omega, ?_⟩
    simp only [Int.ofNat_eq_coe]
    omega

theorem nuevoId_unoHasta (productos : List Producto) (k : Nat)
    (h : productos.map (·.id) = unoHasta k) (hk : k < 4294967295) :
    nuevoId productos = (k : Int) + 1 := by
  cases k with
  | zero =>
    have : productos = [] := by simpa [unoHasta] using h
    subst this
    rfl
  | succ k =>
    have hm : ((k + 1 : Nat) : Int) ∈ productos.map (·.id) := by
      rw [h, mem_unoHasta]; omega
    have hle : ∀ i ∈ productos.map (·.id), i ≤ ((k + 1 : Nat) : Int) := by
      intro i hi
      rw [h, mem_unoHasta] at hi
      exact hi.2
    rw [nuevoId_eq_of_isGreatest productos _ hm hle, sumaUno_eq _ (by omega) (by omega)]

theorem postProductos_exito (ahora : Cadena) (body : Cuerpo) (archivo : Archivo)
    (hv : validarProducto body false = .ok [])
    (hlen : (leerProductos archivo).length < 4294967295) :
    ∃ p, (postProductos ahora body archivo).1 = .creado p := by
  obtain ⟨s, _, hpost⟩ := postProductos_of_valido ahora body archivo hv
  have hlen' : ¬ (leerProductos archivo).length + 1 > 4294967295 := by omega
  rw [if_neg hlen'] at hpost
  exact ⟨_, by rw [hpost]⟩

theorem id_de_creado (ahora : Cadena) (body : Cuerpo) (archivo : Archivo) (p : Producto)
    (hp : (postProductos ahora body archivo).1 = .creado p)
    (hseg : ∀ i ∈ ids archivo, esSeguro i) :
    (ids archivo = [] → p.id = 1) ∧
      (∀ m ∈ ids archivo, (∀ i ∈ ids archivo, i ≤ m) → p.id = m + 1) := by
  have hid := (idCreado_postProductos _ _ _ _ hp).1
  constructor
  · intro h0
    have : leerProductos archivo = [] := by simpa [ids] using h0
    rw [hid, this]
    rfl
  · intro m hm hle
    have hsm : |m| < 9007199254740992 := hseg m hm
    rw [abs_lt] at hsm
    rw [hid, nuevoId_eq_of_isGreatest _ m hm hle, sumaUno_eq m (by omega) (by omega)]

theorem crearTodos_unoHasta (entradas : List (Cadena × Cuerpo))
    (hval : ∀ x ∈ entradas, validarProducto x.2 false = .ok []) :
    ∀ (archivo : Archivo) (k : Nat), ids archivo = unoHasta k →
      (k + entradas.length ≤ 4294967295 →
        ∀ r ∈ (crearTodos entradas archivo).1, ∃ p, r = .creado p) ∧
      ((∀ r ∈ (crearTodos entradas archivo).1, ∃ p, r = .creado p) →
        (crearTodos entradas archivo).1.map idCreado =
          (List.range' (k + 1) entradas.length).map (fun j => some (Int.ofNat j)) ∧
        ids (crearTodos entradas archivo).2 = unoHasta (k + entradas.length)) := by
  induction entradas with
  | nil =>
    intro archivo k hk
    simp [crearTodos, hk]
  | cons x resto ih =>
    intro archivo k hk
    obtain ⟨ahora, body⟩ := x
    have hv : validarProducto body false = .ok [] := hval (ahora, body) (List.mem_cons_self _ _)
    have hval' : ∀ y ∈ resto, validarProducto y.2 false = .ok [] :=
      fun y hy => hval y (List.mem_cons_of_mem _ hy)
    have hlenk : (leerProductos archivo).length = k := by
      have := congrArg List.length hk
      simpa [ids, unoHasta] using this
    obtain ⟨s, hs, hpost⟩ := postProductos_of_valido ahora body archivo hv
    by_cases hlim : k < 4294967295
    · have hlen' : ¬ (leerProductos archivo).length + 1 > 4294967295 := by omega
      rw [if_neg hlen', nuevoId_unoHasta _ k hk hlim] at hpost
      have hids : ids (postProductos ahora body archivo).2 = unoHasta (k + 1) := by
        rw [hpost, ids_guardarProductos, unoHasta_succ]
        simp only [List.map_append, List.map_cons, List.map_nil]
        rw [show List.map (fun x => x.id) (leerProductos archivo) = unoHasta k from hk]
        rfl
      obtain ⟨ih1, ih2⟩ := ih hval' (postProductos ahora body archivo).2 (k + 1) hids
      have hresp : (postProductos ahora body archivo).1 =
          .creado (nuevoProducto ((k : Int) + 1) (trim s) ahora body).json := by rw [hpost]
      constructor
      · intro hle r hr
        simp only [crearTodos, List.mem_cons] at hr
        rcases hr with rfl | hr
        · exact ⟨_, hresp⟩
        · exact ih1 (by simp only [List.length_cons] at hle; omega) r hr
      · intro hall
        have hall' : ∀ r ∈ (crearTodos resto (postProductos ahora body archivo).2).1,
            ∃ p, r = .creado p := by
          intro r hr
          exact hall r (by simp only [crearTodos, List.mem_cons]; exact Or.inr hr)
        obtain ⟨h1, h2⟩ := ih2 hall'
        constructor
        · simp only [crearTodos, List.map_cons, List.length_cons, List.range'_succ, h1, hresp,
            idCreado]
          simp [nuevoProducto]
        · simp only [crearTodos, List.length_cons, h2]
          congr 1
          omega
    · have hlen' : (leerProductos archivo).length + 1 > 4294967295 := by omega
      rw [if_pos hlen'] at hpost
      constructor
      · intro hle
        simp only [List.length_cons] at hle
        omega
      · intro hall
        obtain ⟨p, hp⟩ := hall (postProductos ahora body archivo).1
          (by simp [crearTodos])
        rw [hpost] at hp
        cases hp


theorem nuevoId_congr (ps qs : List Producto)
    (h : ∀ i, i ∈ ps.map (·.id) ↔ i ∈ qs.map (·.id)) : nuevoId ps = nuevoId qs := by
  by_cases hp : ps = []
  · subst hp
    have hq : qs = [] := by
      cases qs with
      | nil => rfl
      | cons q qs => exact absurd ((h q.id).2 (by simp)) (by simp)
    rw [hq]
  · obtain ⟨m, hm, hle⟩ := exists_isGreatest ps hp
    rw [nuevoId_eq_of_isGreatest ps m hm hle,
      nuevoId_eq_of_isGreatest qs m ((h m).1 hm) (fun i hi => hle i ((h i).2 hi))]


theorem deleteProducto_of_mem (archivo : Archivo) (m : Int) (hm : m ∈ ids archivo) :
    ∃ indice q, (leerProductos archivo)[indice]? = some q ∧ q.id = m ∧
      deleteProducto (some m) archivo =
        (.eliminado q.json, guardarProductos ((leerProductos archivo).eraseIdx indice)) ∧
      ((leerProductos archivo).eraseIdx indice).map (·.id) = (ids archivo).erase m := by
  rw [deleteProducto_eq]
  cases hi : (leerProductos archivo).findIdx? (fun p => some p.id == some m) with
  | none =>
    rw [List.findIdx?_eq_none_iff] at hi
    simp only [ids, List.mem_map] at hm
    obtain ⟨p, hp, rfl⟩ := hm
    have := hi p hp
    simp at this
  | some indice =>
    have h := List.findIdx?_of_eq_some hi
    cases ha : (leerProductos archivo)[indice]? with
    | none => rw [ha] at h; simp at h
    | some q =>
      rw [ha] at h
      refine ⟨indice, q, ha, by simpa using h, by simp only [ha], ?_⟩
      exact map_id_eraseIdx_findIdx _ m indice hi


/-! ## Identifiers: properties -/

/-- C1, amended. If the identifiers of the file are pairwise distinct, they
are again pairwise distinct after any update and after any delete, and after
any create provided the identifiers are safe integers (magnitude below
`2 ^ 53`). -/
theorem C1_ids_distintos (archivo : Archivo) (h : (ids archivo).Nodup) :
    (∀ ahora body, (∀ i ∈ ids archivo, esSeguro i) →
      (ids (postProductos ahora body archivo).2).Nodup) ∧
    (∀ id body, (ids (putProducto id body archivo).2).Nodup) ∧
    (∀ id, (ids (deleteProducto id archivo).2).Nodup) := by
  refine ⟨?_, ?_, ?_⟩
  · intro ahora body hseg
    rcases ids_postProductos ahora body archivo with h' | h'
    · rw [h']; exact h
    · rw [h']
      exact List.Nodup.append h (List.nodup_singleton _)
        (by
          intro a ha hb
          rw [List.mem_singleton] at hb
          subst hb
          exact nuevoId_not_mem _ hseg ha)
  · intro id body
    rw [ids_putProducto]
    exact h
  · intro id
    exact h.sublist (ids_deleteProducto_sublist id archivo)

/-- C1, amended, on the file with the records 1 and 2: a create, an update of
record 2 and a delete of record 1 each leave distinct identifiers. -/
theorem C1_ids_distintos_witness :
    (ids (postProductos unaFecha cuerpoPen (some [registro 1, registro 2])).2).Nodup ∧
    (ids (putProducto (some 2) cuerpoPen (some [registro 1, registro 2])).2).Nodup ∧
    (ids (deleteProducto (some 1) (some [registro 1, registro 2])).2).Nodup :=
  ⟨(C1_ids_distintos (some [registro 1, registro 2]) (by decide)).1 unaFecha cuerpoPen
      (by decide),
    (C1_ids_distintos (some [registro 1, registro 2]) (by decide)).2.1 (some 2) cuerpoPen,
    (C1_ids_distintos (some [registro 1, registro 2]) (by decide)).2.2 (some 1)⟩

/-- C1 as stated fails: on the file whose only record has the identifier
`2 ^ 53`, a create succeeds and stores a second record with the identifier
`2 ^ 53`, because `2 ^ 53 + 1` is not a double and rounds to `2 ^ 53`. -/
theorem C1_contraejemplo_id_repetido :
    (ids (some [registro 9007199254740992])).Nodup ∧
    idCreado (postProductos unaFecha cuerpoPen (some [registro 9007199254740992])).1 =
      some 9007199254740992 ∧
    ids (postProductos unaFecha cuerpoPen (some [registro 9007199254740992])).2 =
      [9007199254740992, 9007199254740992] ∧
    ¬ (ids (postProductos unaFecha cuerpoPen (some [registro 9007199254740992])).2).Nodup := by
  refine ⟨by decide, by rfl, by rfl, ?_⟩
  have h : ids (postProductos unaFecha cuerpoPen (some [registro 9007199254740992])).2 =
      [9007199254740992, 9007199254740992] := by rfl
  rw [h]
  decide

/-- C2, amended. On a file whose identifiers are safe integers, every create
with a valid payload that is answered 201 returns a record `p` such that:
`p.id` is 1 when the file has no record and is the greatest stored identifier
plus one otherwise; the file then holds the old records as `JSON.stringify`
writes them, in the same order, followed by `p` as the last record; and when
writing the old records changes nothing (they hold no number that is not
finite) the file is the old array followed by `p`. In the model, where the
engine sets no limit of its own on the length of an argument list, the create
is answered 201 whenever the file has fewer than `2 ^ 32 - 1` records. -/
theorem C2_create_agrega (ahora : Cadena) (body : Cuerpo) (archivo : Archivo)
    (hv : validarProducto body false = .ok [])
    (hseg : ∀ i ∈ ids archivo, esSeguro i) :
    ((leerProductos archivo).length < 4294967295 →
      ∃ p, (postProductos ahora body archivo).1 = .creado p) ∧
    (∀ p, (postProductos ahora body archivo).1 = .creado p →
      (ids archivo = [] → p.id = 1) ∧
      (∀ m ∈ ids archivo, (∀ i ∈ ids archivo, i ≤ m) → p.id = m + 1) ∧
      leerProductos (postProductos ahora body archivo).2 =
        (leerProductos archivo).map Producto.json ++ [p] ∧
      ((∀ q ∈ leerProductos archivo, q.json = q) →
        leerProductos (postProductos ahora body archivo).2 =
          leerProductos archivo ++ [p])) := by
  refine ⟨postProductos_exito ahora body archivo hv, fun p hp => ?_⟩
  obtain ⟨h1, hmax⟩ := id_de_creado ahora body archivo p hp hseg
  have hfile : leerProductos (postProductos ahora body archivo).2 =
      (leerProductos archivo).map Producto.json ++ [p] := by
    rw [(idCreado_postProductos _ _ _ _ hp).2.2.2]
    rfl
  refine ⟨h1, hmax, hfile, fun hjson => ?_⟩
  rw [hfile]
  congr 1
  exact (List.map_congr_left hjson).trans (List.map_id _)

/-- C2, amended, on the file with the records 1 and 5: the create of the
scenario body is answered 201 with the identifier 5 + 1 and the file is the
old array followed by the returned record. -/
theorem C2_create_agrega_witness :
    (nuevoProducto 6 (cadena "Pen") unaFecha cuerpoPen).json.id = 5 + 1 ∧
    leerProductos (postProductos unaFecha cuerpoPen (some [registro 1, registro 5])).2 =
      leerProductos (some [registro 1, registro 5]) ++
        [(nuevoProducto 6 (cadena "Pen") unaFecha cuerpoPen).json] :=
  ⟨(((C2_create_agrega unaFecha cuerpoPen (some [registro 1, registro 5]) rfl (by decide)).2
      (nuevoProducto 6 (cadena "Pen") unaFecha cuerpoPen).json rfl).2.1 5 (by decide)
      (by decide)),
    (((C2_create_agrega unaFecha cuerpoPen (some [registro 1, registro 5]) rfl (by decide)).2
      (nuevoProducto 6 (cadena "Pen") unaFecha cuerpoPen).json rfl).2.2.2 (by decide))⟩

/-- C2 as stated fails. On the file whose only record has the identifier
`2 ^ 53`, a create with a valid payload gives the new record the identifier
`2 ^ 53`, which is not the greatest stored identifier plus one. And on a
file whose record holds the number `Infinity` (the JSON text `1e999`), the
create rewrites that record with `null` in its place, so the old collection
is not left unchanged. -/
theorem C2_contraejemplo_id_maximo :
    validarProducto cuerpoPen false = .ok [] ∧
    ids (some [registro 9007199254740992]) = [9007199254740992] ∧
    idCreado (postProductos unaFecha cuerpoPen (some [registro 9007199254740992])).1 =
      some 9007199254740992 ∧
    (9007199254740992 : Int) ≠ 9007199254740992 + 1 ∧
    (leerProductos (postProductos unaFecha cuerpoPen
      (some [{ registro 1 with precio := some (.num (.inf false)) }])).2).head? =
        some { registro 1 with precio := some .nulo } ∧
    ({ registro 1 with precio := some .nulo } : Producto) ≠
      { registro 1 with precio := some (.num (.inf false)) } :=
  ⟨rfl, rfl, rfl, by decide, rfl, by decide⟩

/-- C3. Starting from a file without records (missing or holding the empty
array), `n` create requests with valid payloads served one after another, all
answered 201, return records with the identifiers 1, 2, ..., n in that order
and leave a file whose identifiers are 1, 2, ..., n in that order, pairwise
distinct. In the model, where the engine sets no limit of its own, the
requests are all answered 201 as long as `n` is at most `2 ^ 32 - 1`, the
largest length of an array. -/
theorem C3_ids_consecutivos (entradas : List (Cadena × Cuerpo)) (archivo : Archivo)
    (hvacio : leerProductos archivo = [])
    (hval : ∀ x ∈ entradas, validarProducto x.2 false = .ok []) :
    (entradas.length ≤ 4294967295 →
      ∀ r ∈ (crearTodos entradas archivo).1, ∃ p, r = .creado p) ∧
    ((∀ r ∈ (crearTodos entradas archivo).1, ∃ p, r = .creado p) →
      (crearTodos entradas archivo).1.map idCreado = (unoHasta entradas.length).map some ∧
      ids (crearTodos entradas archivo).2 = unoHasta entradas.length ∧
      (ids (crearTodos entradas archivo).2).Nodup) := by
  have h0 : ids archivo = unoHasta 0 := by simp [ids, hvacio, unoHasta]
  obtain ⟨h1, h2⟩ := crearTodos_unoHasta entradas hval archivo 0 h0
  refine ⟨fun hle => h1 (by omega), fun hall => ?_⟩
  obtain ⟨ha, hb⟩ := h2 hall
  simp only [Nat.zero_add] at ha hb
  refine ⟨?_, hb, ?_⟩
  · rw [ha]
    simp [unoHasta]
  · rw [hb]
    unfold unoHasta
    exact (List.nodup_range' 1 _).map (fun a b hab => by simpa using hab)

/-- C3 on three create requests on the missing file: all three are answered
201, with the identifiers 1, 2, 3. -/
theorem C3_ids_consecutivos_witness :
    (crearTodos [(unaFecha, cuerpoPen), (unaFecha, cuerpoCon (.num unCentesimo) diezLetras),
        (unaFecha, cuerpoPen)] none).1.map idCreado = [some 1, some 2, some 3] ∧
    ids (crearTodos [(unaFecha, cuerpoPen), (unaFecha, cuerpoCon (.num unCentesimo) diezLetras),
        (unaFecha, cuerpoPen)] none).2 = [1, 2, 3] :=
  have h := C3_ids_consecutivos
    [(unaFecha, cuerpoPen), (unaFecha, cuerpoCon (.num unCentesimo) diezLetras),
      (unaFecha, cuerpoPen)] none rfl
    (by
      intro x hx
      simp only [List.mem_cons, List.mem_singleton, List.not_mem_nil, or_false] at hx
      rcases hx with rfl | rfl | rfl <;> rfl)
  ⟨(h.2 (h.1 (by decide))).1, (h.2 (h.1 (by decide))).2.1⟩

/-- C4. From the missing file, create A answers with identifier 1, create B
with identifier 2, the delete of 1 returns record 1, and create C then
answers with identifier 3. In general the identifier given by a successful
create is a function of the set of identifiers stored at that moment: two
files that hold the same identifiers give the same new identifier, which is
1 when there is none and otherwise the JavaScript sum `m + 1` for the greatest
stored identifier `m`, equal to the integer `m + 1` when `m` is a safe
integer. -/
theorem C4_id_segun_contenido :
    (idCreado (postProductos unaFecha cuerpoPen none).1 = some 1 ∧
      idCreado (postProductos unaFecha cuerpoPen
        (postProductos unaFecha cuerpoPen none).2).1 = some 2 ∧
      (∃ q, (deleteProducto (some 1) (postProductos unaFecha cuerpoPen
        (postProductos unaFecha cuerpoPen none).2).2).1 = .eliminado q ∧ q.id = 1) ∧
      idCreado (postProductos unaFecha cuerpoPen
        (deleteProducto (some 1) (postProductos unaFecha cuerpoPen
          (postProductos unaFecha cuerpoPen none).2).2).2).1 = some 3) ∧
    (∀ ahora₁ ahora₂ body₁ body₂ archivo₁ archivo₂ p₁ p₂,
      (∀ i, i ∈ ids archivo₁ ↔ i ∈ ids archivo₂) →
      (postProductos ahora₁ body₁ archivo₁).1 = .creado p₁ →
      (postProductos ahora₂ body₂ archivo₂).1 = .creado p₂ →
      p₁.id = p₂.id) ∧
    (∀ ahora body archivo p, (postProductos ahora body archivo).1 = .creado p →
      (ids archivo = [] → p.id = 1) ∧
      (∀ m ∈ ids archivo, (∀ i ∈ ids archivo, i ≤ m) →
        p.id = sumaUno m ∧ (esSeguro m → p.id = m + 1))) := by
  refine ⟨⟨rfl, rfl, ⟨_, rfl, rfl⟩, rfl⟩, ?_, ?_⟩
  · intro ahora₁ ahora₂ body₁ body₂ archivo₁ archivo₂ p₁ p₂ hset h₁ h₂
    rw [(idCreado_postProductos _ _ _ _ h₁).1, (idCreado_postProductos _ _ _ _ h₂).1]
    exact nuevoId_congr _ _ hset
  · intro ahora body archivo p h
    have hid := (idCreado_postProductos _ _ _ _ h).1
    constructor
    · intro h0
      have : leerProductos archivo = [] := by simpa [ids] using h0
      rw [hid, this]
      rfl
    · intro m hm hle
      have hsum : p.id = sumaUno m := by rw [hid, nuevoId_eq_of_isGreatest _ m hm hle]
      refine ⟨hsum, fun hs => ?_⟩
      have hs' : |m| < 9007199254740992 := hs
      rw [abs_lt] at hs'
      rw [hsum, sumaUno_eq m (by omega) (by omega)]

/-- C4 on two files that hold the identifiers 1 and 2, in different orders
and with different numbers of records: creates with different bodies answer
with the same identifier, which is 2 + 1. -/
theorem C4_id_segun_contenido_witness :
    (nuevoProducto 3 (cadena "Pen") unaFecha cuerpoPen).json.id =
      (nuevoProducto 3 (cadena "Pen") unaFecha (cuerpoCon (.num unCentesimo) diezLetras)).json.id ∧
    (nuevoProducto 3 (cadena "Pen") unaFecha cuerpoPen).json.id = 2 + 1 :=
  ⟨C4_id_segun_contenido.2.1 unaFecha unaFecha cuerpoPen
      (cuerpoCon (.num unCentesimo) diezLetras)
      (some [registro 1, registro 2]) (some [registro 2, registro 1, registro 2])
      (nuevoProducto 3 (cadena "Pen") unaFecha cuerpoPen).json
      (nuevoProducto 3 (cadena "Pen") unaFecha (cuerpoCon (.num unCentesimo) diezLetras)).json
      (by intro i; simp [ids, leerProductos, registro]; tauto) rfl rfl,
    ((C4_id_segun_contenido.2.2 unaFecha cuerpoPen (some [registro 1, registro 2])
      (nuevoProducto 3 (cadena "Pen") unaFecha cuerpoPen).json rfl).2 2 (by decide)
      (by decide)).2 (by decide)⟩

/-- C5 as stated fails: on the file with the records 1 and 5, deleting record
5 (the highest identifier) and creating a record gives the new record the
identifier 2, not 5; on the file with the single record 7, it gives 1. -/
theorem C5_contraejemplo_no_reemite :
    (ids (some [registro 1, registro 5])).Nodup ∧
    (deleteProducto (some 5) (some [registro 1, registro 5])).1 = .eliminado (registro 5) ∧
    idCreado (postProductos unaFecha cuerpoPen
      (deleteProducto (some 5) (some [registro 1, registro 5])).2).1 = some 2 ∧
    (deleteProducto (some 7) (some [registro 7])).1 = .eliminado (registro 7) ∧
    idCreado (postProductos unaFecha cuerpoPen
      (deleteProducto (some 7) (some [registro 7])).2).1 = some 1 :=
  ⟨by decide, rfl, rfl, rfl, rfl⟩

/-- C5, amended. On a file with pairwise distinct safe-integer identifiers,
deleting the record with the highest identifier `m` returns that record, and
every create that is then answered 201 returns the identifier 1 when no record
is left and the greatest remaining identifier plus one otherwise. The new
identifier is `m` again exactly when `m - 1` is also an identifier of the
file, or the file is the single record with identifier 1. In the model the
create is answered 201 whenever its payload is valid and the file had at most
`2 ^ 32 - 1` records, as every array. -/
theorem C5_id_tras_borrar_maximo (archivo : Archivo) (m : Int) (ahora : Cadena)
    (body : Cuerpo)
    (hnd : (ids archivo).Nodup) (hseg : ∀ i ∈ ids archivo, esSeguro i)
    (hm : m ∈ ids archivo) (hmax : ∀ i ∈ ids archivo, i ≤ m) :
    (∃ q, (deleteProducto (some m) archivo).1 = .eliminado q ∧ q.id = m) ∧
    ids (deleteProducto (some m) archivo).2 = (ids archivo).erase m ∧
    (validarProducto body false = .ok [] → (leerProductos archivo).length ≤ 4294967295 →
      ∃ p, (postProductos ahora body (deleteProducto (some m) archivo).2).1 = .creado p) ∧
    (∀ p, (postProductos ahora body (deleteProducto (some m) archivo).2).1 = .creado p →
      ((ids archivo).erase m = [] → p.id = 1) ∧
      (∀ r ∈ (ids archivo).erase m, (∀ i ∈ (ids archivo).erase m, i ≤ r) → p.id = r + 1) ∧
      (p.id = m ↔ (m - 1 ∈ ids archivo ∨ (ids archivo = [m] ∧ m = 1)))) := by
  obtain ⟨indice, q, hq, hqid, hdel, herase⟩ := deleteProducto_of_mem archivo m hm
  have hids : ids (deleteProducto (some m) archivo).2 = (ids archivo).erase m := by
    rw [hdel, ids_guardarProductos, herase]
  have hseg' : ∀ i ∈ ids (deleteProducto (some m) archivo).2, esSeguro i := by
    intro i hi
    rw [hids] at hi
    exact hseg i (List.mem_of_mem_erase hi)
  refine ⟨⟨q.json, by rw [hdel], hqid⟩, hids, ?_, ?_⟩
  · intro hv hlen
    apply postProductos_exito ahora body _ hv
    have h1 : (leerProductos (deleteProducto (some m) archivo).2).length =
        ((ids archivo).erase m).length := by
      rw [← hids]; simp [ids]
    have h2 : (ids archivo).length = (leerProductos archivo).length := by simp [ids]
    have h3 := List.length_erase_of_mem hm
    have h4 : 0 < (ids archivo).length := List.length_pos_of_mem hm
    omega
  intro p hp
  obtain ⟨hp0, hpmax⟩ := id_de_creado ahora body _ p hp hseg'
  rw [hids] at hp0 hpmax
  refine ⟨hp0, hpmax, ?_⟩
  have hmem_erase : ∀ i, i ∈ (ids archivo).erase m ↔ i ∈ ids archivo ∧ i ≠ m := by
    intro i
    rw [hnd.mem_erase_iff]
    tauto
  by_cases hrest : (ids archivo).erase m = []
  · have hsingle : ids archivo = [m] := by
      have hl := List.length_erase_of_mem hm
      rw [hrest] at hl
      have hl1 : (ids archivo).length = 1 := by
        have : 0 < (ids archivo).length := List.length_pos_of_mem hm
        simp only [List.length_nil] at hl
        omega
      obtain ⟨a, ha⟩ := List.length_eq_one.1 hl1
      rw [ha] at hm ⊢
      simp only [List.mem_singleton] at hm
      rw [hm]
    rw [hp0 hrest]
    constructor
    · intro h1
      right
      exact ⟨hsingle, h1.symm⟩
    · rintro (h | ⟨_, h⟩)
      · rw [hsingle, List.mem_singleton] at h
        omega
      · exact h.symm
  · have hne : ∃ r, r ∈ (ids archivo).erase m ∧ ∀ i ∈ (ids archivo).erase m, i ≤ r := by
      obtain ⟨x, hx⟩ := List.exists_mem_of_ne_nil _ hrest
      have hfin : ((ids archivo).erase m).toFinset.Nonempty := ⟨x, by simpa using hx⟩
      refine ⟨((ids archivo).erase m).toFinset.max' hfin, ?_, ?_⟩
      · simpa using Finset.max'_mem _ hfin
      · intro i hi
        exact Finset.le_max' _ i (by simpa using hi)
    obtain ⟨r, hr, hrle⟩ := hne
    rw [hpmax r hr hrle]
    have hr' := (hmem_erase r).1 hr
    have hrm : r < m := lt_of_le_of_ne (hmax r hr'.1) hr'.2
    constructor
    · intro h
      left
      have : m - 1 = r := by omega
      rw [this]
      exact hr'.1
    · rintro (h | ⟨h, _⟩)
      · have := hrle (m - 1) ((hmem_erase _).2 ⟨h, by omega⟩)
        omega
      · rw [h] at hrest
        simp at hrest

/-- C5, amended, on the file with the records 1 and 2: deleting record 2 and
creating a record reissues the identifier 2, since 1 is an identifier of the
file. -/
theorem C5_id_tras_borrar_maximo_witness :
    ∃ p, (postProductos unaFecha cuerpoPen
        (deleteProducto (some 2) (some [registro 1, registro 2])).2).1 = .creado p ∧
      p.id = 2 := by
  obtain ⟨_, _, hex, hid⟩ :=
    C5_id_tras_borrar_maximo (some [registro 1, registro 2]) 2 unaFecha cuerpoPen
      (by decide) (by decide) (by decide) (by decide)
  obtain ⟨p, hp⟩ := hex rfl (by decide)
  exact ⟨p, hp, (hid p hp).2.2.2 (Or.inl (by decide))⟩

/-! ## The validator: properties -/

/-- C6 (where the code departs from it). `validarProducto` throws a `TypeError`
as soon as `nombre` is present and is not a string: shown here for a number,
`null`, a boolean, an array and an object, on create and on update; the
create handler then answers 500 and leaves the file untouched. -/
theorem C6_validarProducto_lanza :
    validarProducto { cuerpoCon (.num (.fin 1 0)) diezLetras with
        nombre := some (.num (.fin 5 0)) } false = .error .typeError ∧
    validarProducto { cuerpoCon (.num (.fin 1 0)) diezLetras with
        nombre := some (.num (.fin 5 0)) } true = .error .typeError ∧
    validarProducto { cuerpoVacio with nombre := some .nulo } true = .error .typeError ∧
    validarProducto { cuerpoVacio with nombre := some (.bool true) } true = .error .typeError ∧
    validarProducto { cuerpoVacio with nombre := some (.arr .nil) } true = .error .typeError ∧
    validarProducto { cuerpoVacio with nombre := some (.obj .nil) } true = .error .typeError ∧
    postProductos (cadena "2024-01-01T00:00:00.000Z")
        { cuerpoCon (.num (.fin 1 0)) diezLetras with nombre := some (.num (.fin 5 0)) } none =
      (.errorInterno, none) :=
  ⟨rfl, rfl, rfl, rfl, rfl, rfl, rfl⟩

/-- C7. On a payload built from JSON values (so `precio` is not `NaN`),
`validarProducto` returns the empty list exactly when: `nombre` is a string
that is non-empty after trimming, or is absent on update; `precio` is a
number strictly greater than zero, or is absent on update; `descripcion` is a
string of length at least 10, or is absent on update; `disponible` is absent
or a boolean. -/
theorem C7_validarProducto_acepta_iff (p : Cuerpo) (e : Bool) (hjson : p.precio ≠ some (.num .nan)) :
    validarProducto p e = .ok [] ↔
      ((∃ s, p.nombre = some (.str s) ∧ trim s ≠ []) ∨ (p.nombre = none ∧ e = true)) ∧
      ((∃ x, p.precio = some (.num x) ∧ x.positivo) ∨ (p.precio = none ∧ e = true)) ∧
      ((∃ s, p.descripcion = some (.str s) ∧ 10 ≤ s.length) ∨
        (p.descripcion = none ∧ e = true)) ∧
      (p.disponible = none ∨ ∃ b, p.disponible = some (.bool b)) := by
  have hpr : ((∃ x, p.precio = some (.num x) ∧ x.menorIgualCero = false) ∨
      (p.precio = none ∧ e = true)) ↔
      ((∃ x, p.precio = some (.num x) ∧ x.positivo) ∨ (p.precio = none ∧ e = true)) := by
    constructor
    · rintro (⟨x, hx, h⟩ | h)
      · exact Or.inl ⟨x, hx, (menorIgualCero_eq_false_iff x (by rintro rfl; exact hjson hx)).1 h⟩
      · exact Or.inr h
    · rintro (⟨x, hx, h⟩ | h)
      · exact Or.inl ⟨x, hx, (menorIgualCero_eq_false_iff x (by rintro rfl; exact hjson hx)).2 h⟩
      · exact Or.inr h
  rw [validarProducto_eq]
  by_cases hn : nombreLanza p.nombre = true
  · simp only [hn, if_true]
    constructor
    · intro h; cases h
    · rintro ⟨(⟨s, hs, _⟩ | ⟨h0, _⟩), _⟩
      · rw [hs] at hn; simp [nombreLanza] at hn
      · rw [h0] at hn; simp [nombreLanza] at hn
  · have hn' : nombreLanza p.nombre = false := by simpa using hn
    simp only [hn', Bool.false_eq_true, if_false, Except.ok.injEq, List.append_eq_nil,
      erroresNombre_eq_nil_iff _ _ hn', erroresPrecio_eq_nil_iff, erroresDescripcion_eq_nil_iff,
      erroresDisponible_eq_nil_iff, hpr, and_assoc]

/-- C7 at a concrete payload: `nombre` "Pen", `precio` 0.01, a description
of 10 code units and no `disponible` are accepted on create. -/
theorem C7_validarProducto_acepta_iff_witness :
    validarProducto (cuerpoCon (.num unCentesimo) diezLetras) false = .ok [] :=
  (C7_validarProducto_acepta_iff (cuerpoCon (.num unCentesimo) diezLetras) false
    (by decide)).2
    ⟨Or.inl ⟨cadena "Pen", rfl, by decide⟩, Or.inl ⟨unCentesimo, rfl, (valor_pos_iff _ _).2 (by decide)⟩,
      Or.inl ⟨diezLetras, rfl, by decide⟩, Or.inl rfl⟩

/-- C8 as stated fails: `Infinity` is not a finite number, yet a payload whose
`precio` is `Infinity` is accepted on create and on update, so the returned
list does not contain the price violation. -/
theorem C8_contraejemplo_infinito :
    ¬ Numero.finitoPositivo (.inf false) ∧
    validarProducto (cuerpoCon (.num (.inf false)) diezLetras) false = .ok [] ∧
    validarProducto (cuerpoCon (.num (.inf false)) diezLetras) true = .ok [] ∧
    msgPrecioInvalido ∉ ([] : List String) :=
  ⟨fun h => h, rfl, rfl, List.not_mem_nil _⟩

/-- C8, amended. When `nombre` is absent or a string, `validarProducto`
returns a list, on create and on update, and that list contains the price
violation exactly when `precio` is present and is not a number, or is a number
at most zero (zero, a negative number or `-Infinity`). -/
theorem C8_violacion_de_precio (p : Cuerpo) (e : Bool)
    (hn : p.nombre = none ∨ ∃ s, p.nombre = some (.str s)) :
    ∃ errs, validarProducto p e = .ok errs ∧
      (msgPrecioInvalido ∈ errs ↔
        ∃ v, p.precio = some v ∧
          (tipoDe (some v) ≠ Tipo.number ∨ ∃ x, v = .num x ∧ x.noPositivo)) := by
  have hn' := (nombreLanza_eq_false_iff p.nombre).2 hn
  refine ⟨_, by rw [validarProducto_eq, hn']; rfl, ?_⟩
  rw [mem_msgPrecioInvalido_iff]
  constructor
  · rintro ⟨v, hv, hinv⟩
    refine ⟨v, hv, ?_⟩
    cases v with
    | num x => exact Or.inr ⟨x, rfl, (menorIgualCero_iff_noPositivo x).1 hinv⟩
    | nulo => exact Or.inl (by simp [tipoDe])
    | bool b => exact Or.inl (by simp [tipoDe])
    | str s => exact Or.inl (by simp [tipoDe])
    | arr xs => exact Or.inl (by simp [tipoDe])
    | obj ps => exact Or.inl (by simp [tipoDe])
  · rintro ⟨v, hv, h⟩
    refine ⟨v, hv, ?_⟩
    cases v with
    | num x =>
      rcases h with h | ⟨y, hy, hy'⟩
      · exact absurd rfl h
      · cases hy
        exact (menorIgualCero_iff_noPositivo x).2 hy'
    | nulo => rfl
    | bool b => rfl
    | str s => rfl
    | arr xs => rfl
    | obj ps => rfl

/-- C8, amended, at a concrete payload: with `nombre` "Pen" and `precio` -1 the
list returned on create contains the price violation. -/
theorem C8_violacion_de_precio_witness :
    ∃ errs, validarProducto (cuerpoCon (.num (.fin (-1) 0)) diezLetras) false = .ok errs ∧
      (msgPrecioInvalido ∈ errs ↔
        ∃ v, (cuerpoCon (.num (.fin (-1) 0)) diezLetras).precio = some v ∧
          (tipoDe (some v) ≠ Tipo.number ∨ ∃ x, v = .num x ∧ x.noPositivo)) :=
  C8_violacion_de_precio (cuerpoCon (.num (.fin (-1) 0)) diezLetras) false
    (Or.inr ⟨cadena "Pen", rfl⟩)

/-- C9. The empty payload yields exactly the three "required" violations
(nombre, precio, descripción, in that order) on create, and none on update. -/
theorem C9_cuerpo_vacio :
    validarProducto cuerpoVacio false =
      .ok [msgNombreObligatorio, msgPrecioObligatorio, msgDescripcionObligatoria] ∧
    [msgNombreObligatorio, msgPrecioObligatorio, msgDescripcionObligatoria].length = 3 ∧
    validarProducto cuerpoVacio true = .ok [] :=
  ⟨rfl, rfl, rfl⟩

/-- C10. With the other fields valid, `precio` 0 and `precio` -1 are rejected
and `precio` 0.01 is accepted; a description of 9 code units is rejected and
one of 10 is accepted (on create and on update). In general, whenever the
validator returns, a numeric `precio` draws the price violation exactly when
it is at most zero, and a string `descripcion` draws the description violation
exactly when its length is below 10. -/
theorem C10_limites :
    (∀ e, validarProducto (cuerpoCon (.num (.fin 0 0)) diezLetras) e =
      .ok [msgPrecioInvalido]) ∧
    (∀ e, validarProducto (cuerpoCon (.num (.fin (-1) 0)) diezLetras) e =
      .ok [msgPrecioInvalido]) ∧
    (∀ e, validarProducto (cuerpoCon (.num unCentesimo) diezLetras) e = .ok []) ∧
    (∀ e, validarProducto (cuerpoCon (.num (.fin 3 (-1))) nueveLetras) e =
      .ok [msgDescripcionCorta]) ∧
    (∀ e, validarProducto (cuerpoCon (.num (.fin 3 (-1))) diezLetras) e = .ok []) ∧
    nueveLetras.length = 9 ∧ diezLetras.length = 10 ∧
    (∀ p e errs x, validarProducto p e = .ok errs → p.precio = some (.num x) →
      (msgPrecioInvalido ∈ errs ↔ x.noPositivo)) ∧
    (∀ p e errs s, validarProducto p e = .ok errs → p.descripcion = some (.str s) →
      (msgDescripcionCorta ∈ errs ↔ s.length < 10)) := by
  refine ⟨?_, ?_, ?_, ?_, ?_, rfl, rfl, ?_, ?_⟩
  · intro e; cases e <;> rfl
  · intro e; cases e <;> rfl
  · intro e; cases e <;> rfl
  · intro e; cases e <;> rfl
  · intro e; cases e <;> rfl
  · intro p e errs x h hx
    rw [validarProducto_eq] at h
    split_ifs at h
    cases h
    rw [mem_msgPrecioInvalido_iff, hx]
    simp [precioInvalido, menorIgualCero_iff_noPositivo]
  · intro p e errs s h hs
    rw [validarProducto_eq] at h
    split_ifs at h
    cases h
    rw [mem_msgDescripcionCorta_iff, hs]
    simp [descripcionInvalida]

/-- C10 at concrete payloads: the double 0.01 is not at most zero and draws no
price violation; a description of 9 code units draws the description
violation. -/
theorem C10_limites_witness :
    (msgPrecioInvalido ∈ ([] : List String) ↔ unCentesimo.noPositivo) ∧
    (msgDescripcionCorta ∈ [msgDescripcionCorta] ↔ nueveLetras.length < 10) :=
  ⟨C10_limites.2.2.2.2.2.2.2.1 (cuerpoCon (.num unCentesimo) diezLetras) false [] unCentesimo
      rfl rfl,
    C10_limites.2.2.2.2.2.2.2.2 (cuerpoCon (.num (.fin 3 (-1))) nueveLetras) false
      [msgDescripcionCorta] nueveLetras rfl rfl⟩

/-! ## Lookup by identifier: lemmas -/

theorem findIdx_eq_none_iff (l : List Producto) (id : Option Int) :
    l.findIdx? (fun p => some p.id == id) = none ↔ ∀ q ∈ l, some q.id ≠ id := by
  simp [List.findIdx?_eq_none_iff]

theorem getElem_of_findIdx (l : List Producto) (id : Option Int) (i : Nat)
    (h : l.findIdx? (fun p => some p.id == id) = some i) :
    ∃ q, l[i]? = some q ∧ some q.id = id := by
  have h' := List.findIdx?_of_eq_some h
  cases ha : l[i]? with
  | none => rw [ha] at h'; simp at h'
  | some q =>
    rw [ha] at h'
    exact ⟨q, rfl, by simpa using h'⟩

theorem exists_findIdx (l : List Producto) (id : Option Int)
    (h : ∃ q ∈ l, some q.id = id) :
    ∃ i q, l.findIdx? (fun p => some p.id == id) = some i ∧ l[i]? = some q ∧
      some q.id = id := by
  cases hi : l.findIdx? (fun p => some p.id == id) with
  | none =>
    obtain ⟨q, hq, hid⟩ := h
    exact absurd hid ((findIdx_eq_none_iff l id).1 hi q hq)
  | some i =>
    obtain ⟨q, hq, hid⟩ := getElem_of_findIdx l id i hi
    exact ⟨i, q, rfl, hq, hid⟩

theorem putProducto_noEncontrado (id : Option Int) (body : Cuerpo) (archivo : Archivo)
    (h : ∀ q ∈ leerProductos archivo, some q.id ≠ id) :
    putProducto id body archivo = (.noEncontrado, archivo) := by
  rw [putProducto_eq, (findIdx_eq_none_iff _ _).2 h]

theorem deleteProducto_noEncontrado (id : Option Int) (archivo : Archivo)
    (h : ∀ q ∈ leerProductos archivo, some q.id ≠ id) :
    deleteProducto id archivo = (.noEncontrado, archivo) := by
  rw [deleteProducto_eq, (findIdx_eq_none_iff _ _).2 h]

theorem putProducto_datosInvalidos (id : Option Int) (body : Cuerpo) (archivo : Archivo)
    (errs : List String) (h : ∃ q ∈ leerProductos archivo, some q.id = id)
    (hv : validarProducto body true = .ok errs) (hne : errs ≠ []) :
    putProducto id body archivo = (.datosInvalidos errs, archivo) := by
  obtain ⟨i, q, hi, _, _⟩ := exists_findIdx _ id h
  rw [putProducto_eq, hi]
  cases errs with
  | nil => exact absurd rfl hne
  | cons e es => simp only [hv]

theorem postProductos_datosInvalidos (ahora : Cadena) (body : Cuerpo) (archivo : Archivo)
    (errs : List String) (hv : validarProducto body false = .ok errs) (hne : errs ≠ []) :
    postProductos ahora body archivo = (.datosInvalidos errs, archivo) := by
  rw [postProductos_eq]
  cases errs with
  | nil => exact absurd rfl hne
  | cons e es => simp only [hv]

theorem postProductos_sin_escritura (ahora : Cadena) (body : Cuerpo) (archivo : Archivo)
    (h : ∀ p, (postProductos ahora body archivo).1 ≠ .creado p) :
    (postProductos ahora body archivo).2 = archivo := by
  rw [postProductos_eq] at h ⊢
  cases hv : validarProducto body false with
  | error ex => rfl
  | ok errs =>
    cases errs with
    | cons e es => rfl
    | nil =>
      rcases hn : body.nombre with _ | (_ | _ | _ | s | _ | _) <;> try rfl
      by_cases hlen : (leerProductos archivo).length + 1 > 4294967295
      · simp only [hlen, if_true]
      · simp only [hv, hn, hlen, if_false] at h
        exact absurd rfl (h _)

theorem putProducto_sin_escritura (id : Option Int) (body : Cuerpo) (archivo : Archivo)
    (h : ∀ p, (putProducto id body archivo).1 ≠ .actualizado p) :
    (putProducto id body archivo).2 = archivo := by
  rw [putProducto_eq] at h ⊢
  cases hi : (leerProductos archivo).findIdx? (fun p => some p.id == id) with
  | none => rfl
  | some indice =>
    cases hv : validarProducto body true with
    | error ex => rfl
    | ok errs =>
      cases errs with
      | cons e es => rfl
      | nil =>
        simp only [hi, hv] at h ⊢
        cases ha : (leerProductos archivo)[indice]? with
        | none => rfl
        | some actual =>
          simp only [ha] at h ⊢
          rcases hn : body.nombre with _ | (_ | _ | _ | s | _ | _) <;> try rfl
          · simp only [hn] at h
            exact absurd rfl (h _)
          · simp only [hn] at h
            exact absurd rfl (h _)

theorem deleteProducto_sin_escritura (id : Option Int) (archivo : Archivo)
    (h : ∀ p, (deleteProducto id archivo).1 ≠ .eliminado p) :
    (deleteProducto id archivo).2 = archivo := by
  rw [deleteProducto_eq] at h ⊢
  cases hi : (leerProductos archivo).findIdx? (fun p => some p.id == id) with
  | none => rfl
  | some indice =>
    simp only [hi] at h ⊢
    cases ha : (leerProductos archivo)[indice]? with
    | none => rfl
    | some q =>
      simp only [ha] at h
      exact absurd rfl (h _)

theorem putProducto_datosInvalidos_inv (id : Option Int) (body : Cuerpo) (archivo : Archivo)
    (errs : List String) (h : (putProducto id body archivo).1 = .datosInvalidos errs) :
    (∃ q ∈ leerProductos archivo, some q.id = id) ∧
      validarProducto body true = .ok errs ∧ errs ≠ [] := by
  rw [putProducto_eq] at h
  split at h
  · cases h
  · rename_i indice hi
    obtain ⟨q, hq, hid⟩ := getElem_of_findIdx _ _ _ hi
    have hmem : q ∈ leerProductos archivo := List.getElem?_mem hq
    split at h
    · cases h
    · rename_i e es hv
      simp only [Respuesta.datosInvalidos.injEq] at h
      subst h
      exact ⟨⟨q, hmem, hid⟩, hv, by simp⟩
    · split at h
      · cases h
      · split at h <;> cases h

/-! ## Create against update: lemmas -/

theorem erroresNombre_sublist (n : Option Valor) :
    (erroresNombre n true).Sublist (erroresNombre n false) := by
  unfold erroresNombre
  apply List.Sublist.append _ (List.Sublist.refl _)
  simp

theorem erroresPrecio_sublist (pr : Option Valor) :
    (erroresPrecio pr true).Sublist (erroresPrecio pr false) := by
  cases pr with
  | none => simp [erroresPrecio]
  | some v => exact List.Sublist.refl _

theorem erroresDescripcion_sublist (d : Option Valor) :
    (erroresDescripcion d true).Sublist (erroresDescripcion d false) := by
  cases d with
  | none => simp [erroresDescripcion]
  | some v => exact List.Sublist.refl _

/-! ## The read handlers: lemmas -/

theorem getProductos_eq (archivo : Archivo) :
    getProductos archivo = (.lista ((leerProductos archivo).map Producto.json), archivo) := rfl

theorem getDisponibles_eq (archivo : Archivo) :
    getDisponibles archivo =
      (.lista (((leerProductos archivo).filter
        (fun p => p.disponible == some (.bool true))).map Producto.json), archivo) := rfl

theorem getProducto_eq (id : Option Int) (archivo : Archivo) :
    getProducto id archivo =
      match (leerProductos archivo).find? (fun p => some p.id == id) with
      | none => (.noEncontrado, archivo)
      | some producto => (.producto producto.json, archivo) := by
  unfold getProducto
  cases h : (leerProductos archivo).find? (fun p => some p.id == id) <;>
    simp [h, responder, pure, Except.pure]

theorem json_eq_true_iff (v : Option Valor) :
    (v.map Valor.json == some (.bool true)) = (v == some (.bool true)) := by
  rcases v with _ | (_ | b | (_ | _ | _) | _ | _ | _) <;> simp [Valor.json]

theorem map_json_eq_self (productos : List Producto)
    (h : ∀ q ∈ productos, q.json = q) : productos.map Producto.json = productos :=
  (List.map_congr_left h).trans (List.map_id _)

theorem getProducto_noEncontrado (id : Option Int) (archivo : Archivo)
    (h : ∀ q ∈ leerProductos archivo, some q.id ≠ id) :
    getProducto id archivo = (.noEncontrado, archivo) := by
  rw [getProducto_eq]
  have : (leerProductos archivo).find? (fun p => some p.id == id) = none := by
    rw [List.find?_eq_none]
    intro q hq
    simpa using h q hq
  rw [this]

/-! ## The path parameter: lemmas -/

theorem leerDigitos_of_digito_none (c : Unidad) (r : Cadena) (hc : digito c = none) :
    leerDigitos (c :: r) = (10, []) := by
  have h48 : c ≠ 48 := by
    rintro rfl
    simp [digito] at hc
  unfold leerDigitos
  split
  · rename_i heq; simp at heq; exact absurd heq.1 h48
  · rename_i heq; simp at heq; exact absurd heq.1 h48
  · simp [prefijoDigitos, hc]

theorem parseInt_eq_none (s : Cadena)
    (h : ∀ c r, trasSigno s = c :: r → digito c = none) : parseInt s = none := by
  unfold parseInt
  rcases ht : trasSigno s with _ | ⟨c, r⟩
  · simp [leerDigitos, prefijoDigitos]
  · simp [leerDigitos_of_digito_none c r (h c r ht)]

theorem handlers_none (archivo : Archivo) (body : Cuerpo) :
    getProducto none archivo = (.noEncontrado, archivo) ∧
    putProducto none body archivo = (.noEncontrado, archivo) ∧
    deleteProducto none archivo = (.noEncontrado, archivo) :=
  ⟨getProducto_noEncontrado none archivo (by simp),
    putProducto_noEncontrado none body archivo (by simp),
    deleteProducto_noEncontrado none archivo (by simp)⟩

/-! ## Delete: lemmas -/

theorem eraseIdx_findIdx_eq_filter (l : List Producto) (m : Int) (i : Nat)
    (hnd : (l.map (·.id)).Nodup)
    (h : l.findIdx? (fun p => some p.id == some m) = some i) :
    l.eraseIdx i = l.filter (fun p => decide (p.id ≠ m)) := by
  induction l generalizing i with
  | nil => simp at h
  | cons p ps ih =>
    rw [List.findIdx?_cons] at h
    simp only [List.map_cons, List.nodup_cons] at hnd
    by_cases hp : p.id = m
    · simp [hp] at h
      subst h
      have hps : ps.filter (fun p => decide (p.id ≠ m)) = ps := by
        rw [List.filter_eq_self]
        intro q hq
        have : q.id ≠ m := by
          rintro rfl
          exact hnd.1 (by rw [hp]; exact List.mem_map_of_mem _ hq)
        simpa using this
      rw [List.filter_cons_of_neg (by simp [hp]), hps]
      rfl
    · simp [hp] at h
      obtain ⟨j, hj, rfl⟩ := h
      rw [List.filter_cons_of_pos (by simp [hp]), List.eraseIdx_cons_succ, ih j hnd.2 hj]

theorem deleteProducto_of_nodup (archivo : Archivo) (m : Int)
    (hnd : (ids archivo).Nodup) (hm : m ∈ ids archivo) :
    ∃ q, q ∈ leerProductos archivo ∧ q.id = m ∧
      deleteProducto (some m) archivo =
        (.eliminado q.json,
          guardarProductos ((leerProductos archivo).filter (fun p => decide (p.id ≠ m)))) := by
  have hex : ∃ q ∈ leerProductos archivo, some q.id = some m := by
    simp only [ids, List.mem_map] at hm
    obtain ⟨q, hq, rfl⟩ := hm
    exact ⟨q, hq, rfl⟩
  obtain ⟨i, q, hi, hq, hid⟩ := exists_findIdx _ _ hex
  refine ⟨q, List.getElem?_mem hq, by simpa using hid, ?_⟩
  rw [deleteProducto_eq, hi]
  simp only [hq]
  rw [eraseIdx_findIdx_eq_filter _ m i hnd hi]

theorem length_filter_ne (l : List Producto) (m : Int) (hnd : (l.map (·.id)).Nodup)
    (hm : m ∈ l.map (·.id)) :
    (l.filter (fun p => decide (p.id ≠ m))).length + 1 = l.length := by
  induction l with
  | nil => simp at hm
  | cons p ps ih =>
    simp only [List.map_cons, List.nodup_cons] at hnd
    by_cases hp : p.id = m
    · have hps : ps.filter (fun p => decide (p.id ≠ m)) = ps := by
        rw [List.filter_eq_self]
        intro q hq
        have : q.id ≠ m := by
          rintro rfl
          exact hnd.1 (by rw [hp]; exact List.mem_map_of_mem _ hq)
        simpa using this
      rw [List.filter_cons_of_neg (by simp [hp]), hps]
      rfl
    · have hm' : m ∈ ps.map (·.id) := by
        simp only [List.map_cons, List.mem_cons] at hm
        rcases hm with h | h
        · exact absurd h.symm hp
        · exact h
      rw [List.filter_cons_of_pos (by simp [hp]), List.length_cons, ih hnd.2 hm']
      rfl

/-! ## Update: lemmas -/

mutual
theorem valor_json_json : ∀ v : Valor, v.json.json = v.json
  | .nulo => rfl
  | .bool _ => rfl
  | .num (.fin _ _) => rfl
  | .num (.inf _) => rfl
  | .num .nan => rfl
  | .str _ => rfl
  | .arr xs => by simp [Valor.json, elementos_json_json xs]
  | .obj ps => by simp [Valor.json, propiedades_json_json ps]
theorem elementos_json_json : ∀ xs : Elementos, xs.json.json = xs.json
  | .nil => rfl
  | .cons v vs => by simp [Elementos.json, valor_json_json v, elementos_json_json vs]
theorem propiedades_json_json : ∀ ps : Propiedades, ps.json.json = ps.json
  | .nil => rfl
  | .cons k v ps => by simp [Propiedades.json, valor_json_json v, propiedades_json_json ps]
end

theorem json_comp_json : Valor.json ∘ Valor.json = Valor.json :=
  funext valor_json_json

theorem option_json_json (v : Option Valor) :
    (v.map Valor.json).map Valor.json = v.map Valor.json := by
  cases v with
  | none => rfl
  | some x => simp [valor_json_json]

theorem producto_json_json (p : Producto) : p.json.json = p.json := by
  simp [Producto.json, json_comp_json]

theorem valido_update (body : Cuerpo) (hv : validarProducto body true = .ok []) :
    (body.nombre = none ∨ ∃ s, body.nombre = some (.str s) ∧ trim s ≠ []) ∧
    (body.precio = none ∨ ∃ x, body.precio = some (.num x) ∧ x.menorIgualCero = false) ∧
    (body.descripcion = none ∨ ∃ s, body.descripcion = some (.str s) ∧ 10 ≤ s.length) ∧
    (body.disponible = none ∨ ∃ b, body.disponible = some (.bool b)) := by
  rw [validarProducto_eq] at hv
  by_cases hn : nombreLanza body.nombre = true
  · rw [hn] at hv; simp at hv
  · have hn' : nombreLanza body.nombre = false := by simpa using hn
    simp only [hn', Bool.false_eq_true, if_false, Except.ok.injEq, List.append_eq_nil,
      erroresNombre_eq_nil_iff _ _ hn', erroresPrecio_eq_nil_iff, erroresDescripcion_eq_nil_iff,
      erroresDisponible_eq_nil_iff, and_assoc] at hv
    obtain ⟨h1, h2, h3, h4⟩ := hv
    refine ⟨?_, ?_, ?_, h4⟩
    · rcases h1 with ⟨s, hs, ht⟩ | ⟨h, _⟩
      · exact Or.inr ⟨s, hs, ht⟩
      · exact Or.inl h
    · rcases h2 with ⟨x, hx, ht⟩ | ⟨h, _⟩
      · exact Or.inr ⟨x, hx, ht⟩
      · exact Or.inl h
    · rcases h3 with ⟨s, hs, ht⟩ | ⟨h, _⟩
      · exact Or.inr ⟨s, hs, ht⟩
      · exact Or.inl h

theorem putProducto_of_valido (id : Option Int) (body : Cuerpo) (archivo : Archivo)
    (i : Nat) (actual : Producto)
    (hi : (leerProductos archivo).findIdx? (fun p => some p.id == id) = some i)
    (ha : (leerProductos archivo)[i]? = some actual)
    (hv : validarProducto body true = .ok []) :
    putProducto id body archivo =
      (.actualizado (productoActualizado actual (nombreRecortado body) body).json,
        guardarProductos ((leerProductos archivo).set i
          (productoActualizado actual (nombreRecortado body) body))) := by
  rw [putProducto_eq, hi]
  simp only [hv, ha]
  rcases (valido_update body hv).1 with hn | ⟨s, hs, _⟩
  · simp [hn, nombreRecortado]
  · simp [hs, nombreRecortado]

theorem findIdx_set (l : List Producto) (id : Option Int) (i : Nat) (actual nuevo : Producto)
    (ha : l[i]? = some actual) (hid : nuevo.id = actual.id) :
    (l.set i nuevo).findIdx? (fun p => some p.id == id) =
      l.findIdx? (fun p => some p.id == id) := by
  have hmap : (l.set i nuevo).map (·.id) = l.map (·.id) := map_id_set l i actual nuevo ha hid
  have h1 : ∀ l' : List Producto, l'.findIdx? (fun p => some p.id == id) =
      (l'.map (·.id)).findIdx? (fun x => some x == id) := by
    intro l'
    rw [List.findIdx?_map]
    rfl
  rw [h1, h1, hmap]

theorem findIdx_map_json (l : List Producto) (id : Option Int) :
    (l.map Producto.json).findIdx? (fun p => some p.id == id) =
      l.findIdx? (fun p => some p.id == id) := by
  rw [List.findIdx?_map]
  rfl

theorem set_of_getElem (l : List Producto) (i : Nat) (x : Producto) (h : l[i]? = some x) :
    l.set i x = l := by
  induction l generalizing i with
  | nil => simp at h
  | cons p ps ih =>
    cases i with
    | zero =>
      simp only [List.getElem?_cons_zero, Option.some.injEq] at h
      simp [h]
    | succ k =>
      simp only [List.getElem?_cons_succ] at h
      simp [ih k h]

theorem productoActualizado_json_json (actual : Producto) (nr : Option Cadena) (body : Cuerpo) :
    (productoActualizado (productoActualizado actual nr body).json nr body).json =
      (productoActualizado actual nr body).json := by
  rcases body with ⟨n, pr, d, di⟩
  cases nr <;> cases pr <;> cases d <;> cases di <;>
    simp [productoActualizado, Producto.json, valor_json_json, json_comp_json]

theorem findIdx_primero (l : List Producto) (id : Option Int) (i : Nat)
    (h : l.findIdx? (fun p => some p.id == id) = some i) :
    ∀ j, j < i → ∀ q, l[j]? = some q → some q.id ≠ id := by
  intro j hj q hq
  obtain ⟨hlt, _, hfirst⟩ := List.findIdx?_eq_some_iff_getElem.1 h
  have hjl : j < l.length := Nat.lt_trans hj hlt
  have := hfirst j hj
  have hq' : l[j] = q := by
    have := List.getElem?_eq_getElem hjl
    rw [this] at hq
    exact Option.some.inj hq
  rw [hq'] at this
  simpa using this

theorem productoActualizado_json_estable (actual : Producto) (body : Cuerpo)
    (hact : actual.json = actual)
    (hv : validarProducto body true = .ok [])
    (hfin : ∀ x, body.precio = some (.num x) → x.esFinito) :
    (productoActualizado actual (nombreRecortado body) body).json =
      productoActualizado actual (nombreRecortado body) body := by
  obtain ⟨hn, hp, hd, hdi⟩ := valido_update body hv
  have ha : actual.nombre.map Valor.json = actual.nombre ∧
      actual.precio.map Valor.json = actual.precio ∧
      actual.descripcion.map Valor.json = actual.descripcion ∧
      actual.disponible.map Valor.json = actual.disponible ∧
      actual.fecha_ingreso.map Valor.json = actual.fecha_ingreso := by
    have h := hact
    rcases actual with ⟨i, n, p, d, di, f⟩
    simp only [Producto.json, Producto.mk.injEq, true_and] at h
    exact h
  obtain ⟨a1, a2, a3, a4, a5⟩ := ha
  have hprecio : (if body.precio.isSome then body.precio else actual.precio).map Valor.json =
      (if body.precio.isSome then body.precio else actual.precio) := by
    rcases hp with h | ⟨x, hx, _⟩
    · simp [h, a2]
    · have hf := hfin x hx
      cases x with
      | fin m e => simp [hx, Valor.json]
      | inf neg => exact absurd hf (by simp [Numero.esFinito])
      | nan => exact absurd hf (by simp [Numero.esFinito])
  have hdesc : (if body.descripcion.isSome then body.descripcion
      else actual.descripcion).map Valor.json =
      (if body.descripcion.isSome then body.descripcion else actual.descripcion) := by
    rcases hd with h | ⟨s, hs, _⟩
    · simp [h, a3]
    · simp [hs, Valor.json]
  have hdisp : (if body.disponible.isSome then body.disponible
      else actual.disponible).map Valor.json =
      (if body.disponible.isSome then body.disponible else actual.disponible) := by
    rcases hdi with h | ⟨b, hb⟩
    · simp [h, a4]
    · simp [hb, Valor.json]
  simp only [productoActualizado, Producto.json, hprecio, hdesc, hdisp, a5]
  cases nombreRecortado body with
  | none => simp only [a1]
  | some s => rfl

/-! ## Trimming: lemmas -/

theorem trim_eq_rdropWhile (s : Cadena) : trim s = (s.dropWhile esEspacio).rdropWhile esEspacio :=
  rfl

theorem dropWhile_trim (s : Cadena) : (trim s).dropWhile esEspacio = trim s := by
  rw [trim_eq_rdropWhile]
  rcases ht : s.dropWhile esEspacio with _ | ⟨a, t⟩
  · simp [List.rdropWhile]
  · have ha : esEspacio a = false := by
      have h := List.head_dropWhile_not esEspacio s (by rw [ht]; simp)
      simpa [ht] using h
    obtain ⟨r, hr⟩ := List.rdropWhile_prefix esEspacio (a :: t)
    rcases hu : List.rdropWhile esEspacio (a :: t) with _ | ⟨b, u⟩
    · rfl
    · rw [hu] at hr
      have hb : b = a := by
        simp only [List.cons_append, List.cons.injEq] at hr
        exact hr.1
      subst hb
      simp [List.dropWhile, ha]

theorem trim_trim (s : Cadena) : trim (trim s) = trim s := by
  rw [trim_eq_rdropWhile (trim s), dropWhile_trim, trim_eq_rdropWhile,
    List.rdropWhile_idempotent]

/-! ## Stored records: lemmas -/

theorem validarProducto_nil_iff (p : Cuerpo) (e : Bool) :
    validarProducto p e = .ok [] ↔
      ((∃ s, p.nombre = some (.str s) ∧ trim s ≠ []) ∨ (p.nombre = none ∧ e = true)) ∧
      ((∃ x, p.precio = some (.num x) ∧ x.menorIgualCero = false) ∨
        (p.precio = none ∧ e = true)) ∧
      ((∃ s, p.descripcion = some (.str s) ∧ 10 ≤ s.length) ∨
        (p.descripcion = none ∧ e = true)) ∧
      (p.disponible = none ∨ ∃ b, p.disponible = some (.bool b)) := by
  rw [validarProducto_eq]
  by_cases hn : nombreLanza p.nombre = true
  · simp only [hn, if_true]
    constructor
    · intro h; cases h
    · rintro ⟨(⟨s, hs, _⟩ | ⟨h0, _⟩), _⟩
      · rw [hs] at hn; simp [nombreLanza] at hn
      · rw [h0] at hn; simp [nombreLanza] at hn
  · have hn' : nombreLanza p.nombre = false := by simpa using hn
    simp only [hn', Bool.false_eq_true, if_false, Except.ok.injEq, List.append_eq_nil,
      erroresNombre_eq_nil_iff _ _ hn', erroresPrecio_eq_nil_iff, erroresDescripcion_eq_nil_iff,
      erroresDisponible_eq_nil_iff, and_assoc]

theorem leer_guardar (productos : List Producto) :
    leerProductos (guardarProductos productos) = productos.map Producto.json := rfl

theorem nuevoProducto_json_valido (id : Int) (ahora : Cadena) (body : Cuerpo) (s : Cadena)
    (hs : body.nombre = some (.str s))
    (hv : validarProducto body false = .ok []) (hfin : body.precioFinito) :
    (nuevoProducto id (trim s) ahora body).json = nuevoProducto id (trim s) ahora body ∧
      (nuevoProducto id (trim s) ahora body).valido := by
  obtain ⟨hn, hp, hd, hdi⟩ := (validarProducto_nil_iff body false).1 hv
  have hts : trim s ≠ [] := by
    rcases hn with ⟨s', hs', ht⟩ | ⟨h, _⟩
    · rw [hs] at hs'; cases hs'; exact ht
    · rw [hs] at h; cases h
  obtain ⟨x, hx, hxp⟩ : ∃ x, body.precio = some (.num x) ∧ x.menorIgualCero = false := by
    rcases hp with h | ⟨_, h⟩
    · exact h
    · cases h
  obtain ⟨d, hd', hdl⟩ : ∃ d, body.descripcion = some (.str d) ∧ 10 ≤ d.length := by
    rcases hd with h | ⟨_, h⟩
    · exact h
    · cases h
  obtain ⟨m, e, rfl⟩ : ∃ m e, x = .fin m e := by
    have := hfin x hx
    cases x with
    | fin m e => exact ⟨m, e, rfl⟩
    | inf neg => exact absurd this (by simp [Numero.esFinito])
    | nan => exact absurd this (by simp [Numero.esFinito])
  constructor
  · rcases hdi with h | ⟨b, hb⟩
    · simp [nuevoProducto, Producto.json, hx, hd', h, Valor.json]
    · simp [nuevoProducto, Producto.json, hx, hd', hb, Valor.json]
  · unfold Producto.valido
    rw [validarProducto_nil_iff]
    refine ⟨Or.inl ⟨trim s, rfl, by rw [trim_trim]; exact hts⟩, Or.inl ⟨_, hx, hxp⟩,
      Or.inl ⟨d, hd', hdl⟩, ?_⟩
    rcases hdi with h | ⟨b, hb⟩
    · exact Or.inr ⟨true, by simp [Producto.cuerpo, nuevoProducto, h]⟩
    · exact Or.inr ⟨b, by simp [Producto.cuerpo, nuevoProducto, hb]⟩

theorem productoActualizado_valido (actual : Producto) (body : Cuerpo)
    (hact : actual.valido) (hv : validarProducto body true = .ok []) :
    (productoActualizado actual (nombreRecortado body) body).valido := by
  obtain ⟨hn, hp, hd, hdi⟩ := valido_update body hv
  obtain ⟨an, ap, ad, adi⟩ := (validarProducto_nil_iff actual.cuerpo false).1 hact
  unfold Producto.valido
  rw [validarProducto_nil_iff]
  refine ⟨Or.inl ?_, Or.inl ?_, Or.inl ?_, ?_⟩
  · rcases hn with h | ⟨s, hs, ht⟩
    · rcases an with ⟨s', hs', ht'⟩ | ⟨_, h'⟩
      · exact ⟨s', by simpa [Producto.cuerpo, productoActualizado, nombreRecortado, h] using hs',
          ht'⟩
      · cases h'
    · exact ⟨trim s, by simp [Producto.cuerpo, productoActualizado, nombreRecortado, hs],
        by rw [trim_trim]; exact ht⟩
  · rcases hp with h | ⟨x, hx, ht⟩
    · rcases ap with ⟨x', hx', ht'⟩ | ⟨_, h'⟩
      · exact ⟨x', by simpa [Producto.cuerpo, productoActualizado, h] using hx', ht'⟩
      · cases h'
    · exact ⟨x, by simp [Producto.cuerpo, productoActualizado, hx], ht⟩
  · rcases hd with h | ⟨s, hs, ht⟩
    · rcases ad with ⟨s', hs', ht'⟩ | ⟨_, h'⟩
      · exact ⟨s', by simpa [Producto.cuerpo, productoActualizado, h] using hs', ht'⟩
      · cases h'
    · exact ⟨s, by simp [Producto.cuerpo, productoActualizado, hs], ht⟩
  · rcases hdi with h | ⟨b, hb⟩
    · simpa [Producto.cuerpo, productoActualizado, h] using adi
    · exact Or.inr ⟨b, by simp [Producto.cuerpo, productoActualizado, hb]⟩

/-- The invariant of the data model holds after every request when no number
that is not finite is involved: if every stored record passes the validator
as a complete record and is written unchanged, so is every record after a
create or an update whose `precio`, when present, is finite, and after a
delete. -/
theorem invariante_con_precio_finito (archivo : Archivo)
    (h : ∀ q ∈ leerProductos archivo, q.valido ∧ q.json = q) :
    (∀ ahora body, body.precioFinito →
      ∀ q ∈ leerProductos (postProductos ahora body archivo).2, q.valido ∧ q.json = q) ∧
    (∀ id body, body.precioFinito →
      ∀ q ∈ leerProductos (putProducto id body archivo).2, q.valido ∧ q.json = q) ∧
    (∀ id, ∀ q ∈ leerProductos (deleteProducto id archivo).2, q.valido ∧ q.json = q) := by
  have hst : ∀ q ∈ leerProductos archivo, q.json = q := fun q hq => (h q hq).2
  refine ⟨?_, ?_, ?_⟩
  · intro ahora body hfin q hq
    by_cases hc : ∃ p, (postProductos ahora body archivo).1 = .creado p
    · obtain ⟨p, hp⟩ := hc
      obtain ⟨_, _, hv, _⟩ := idCreado_postProductos _ _ _ _ hp
      obtain ⟨s, hs, hpost⟩ := postProductos_of_valido ahora body archivo hv
      have hlen : ¬ (leerProductos archivo).length + 1 > 4294967295 := by
        intro hl
        rw [if_pos hl] at hpost
        rw [hpost] at hp
        cases hp
      rw [if_neg hlen] at hpost
      obtain ⟨hj, hval⟩ := nuevoProducto_json_valido (nuevoId (leerProductos archivo)) ahora
        body s hs hv hfin
      rw [hpost, leer_guardar] at hq
      simp only [List.map_append, List.map_cons, List.map_nil,
        List.mem_append, List.mem_singleton] at hq
      rcases hq with hq | hq
      · rw [map_json_eq_self _ hst] at hq
        exact h q hq
      · rw [hq, hj]
        exact ⟨hval, hj⟩
    · rw [postProductos_sin_escritura ahora body archivo (fun p hp => hc ⟨p, hp⟩)] at hq
      exact h q hq
  · intro id body hfin q hq
    by_cases hc : ∃ p, (putProducto id body archivo).1 = .actualizado p
    · obtain ⟨p, hp⟩ := hc
      cases hi : (leerProductos archivo).findIdx? (fun p => some p.id == id) with
      | none =>
        rw [putProducto_noEncontrado id body archivo ((findIdx_eq_none_iff _ _).1 hi)] at hp
        cases hp
      | some i =>
        obtain ⟨actual, ha, _⟩ := getElem_of_findIdx _ _ _ hi
        have hv : validarProducto body true = .ok [] := by
          rw [putProducto_eq, hi] at hp
          cases hvv : validarProducto body true with
          | error ex => rw [hvv] at hp; cases hp
          | ok errs =>
            cases errs with
            | nil => rfl
            | cons e es => rw [hvv] at hp; cases hp
        have hact := h actual (List.getElem?_mem ha)
        have hput := putProducto_of_valido id body archivo i actual hi ha hv
        have hj := productoActualizado_json_estable actual body hact.2 hv hfin
        have hval := productoActualizado_valido actual body hact.1 hv
        rw [hput, leer_guardar] at hq
        simp only [List.mem_map] at hq
        obtain ⟨q', hq', rfl⟩ := hq
        rcases List.mem_or_eq_of_mem_set hq' with hm | hm
        · rw [hst q' hm]
          exact h q' hm
        · rw [hm, hj]
          exact ⟨hval, hj⟩
    · rw [putProducto_sin_escritura id body archivo (fun p hp => hc ⟨p, hp⟩)] at hq
      exact h q hq
  · intro id q hq
    rw [deleteProducto_eq] at hq
    split at hq
    · exact h q hq
    · split at hq
      · exact h q hq
      · rw [leer_guardar] at hq
        simp only [List.mem_map] at hq
        obtain ⟨q', hq', rfl⟩ := hq
        have hm := List.mem_of_mem_eraseIdx hq'
        rw [hst q' hm]
        exact h q' hm

theorem find_of_nodup (l : List Producto) (hnd : (l.map (·.id)).Nodup) (p : Producto)
    (hp : p ∈ l) : l.find? (fun q => some q.id == some p.id) = some p := by
  induction l with
  | nil => cases hp
  | cons a t ih =>
    rw [List.map_cons, List.nodup_cons] at hnd
    rcases List.mem_cons.1 hp with rfl | hm
    · simp [List.find?]
    · have hne : a.id ≠ p.id := fun he => hnd.1 (he ▸ List.mem_map_of_mem _ hm)
      rw [List.find?_cons_of_neg _ (by simpa using hne)]
      exact ih hnd.2 hm

/-- What a create stores when the `precio` of the payload is finite: the
`nombre` of the payload trimmed, its `precio` and `descripcion` as sent, its
`disponible` when present and `true` when absent; the record is the last one
of the file, and when the identifiers of the file are pairwise distinct the
get of the returned identifier answers with that record. -/
theorem crear_almacena_literal (ahora : Cadena) (body : Cuerpo) (archivo : Archivo)
    (p : Producto) (hfin : body.precioFinito)
    (hp : (postProductos ahora body archivo).1 = .creado p) :
    (∃ s, body.nombre = some (.str s) ∧ p.nombre = some (.str (trim s))) ∧
    p.precio = body.precio ∧
    p.descripcion = body.descripcion ∧
    p.disponible = (if body.disponible.isSome then body.disponible else some (.bool true)) ∧
    (leerProductos (postProductos ahora body archivo).2).getLast? = some p ∧
    ((ids (postProductos ahora body archivo).2).Nodup →
      getProducto (some p.id) (postProductos ahora body archivo).2 =
        (.producto p, (postProductos ahora body archivo).2)) := by
  obtain ⟨_, _, hv, harch⟩ := idCreado_postProductos _ _ _ _ hp
  obtain ⟨s, hs, hpost⟩ := postProductos_of_valido ahora body archivo hv
  have hlen : ¬ (leerProductos archivo).length + 1 > 4294967295 := by
    intro hl
    rw [if_pos hl] at hpost
    rw [hpost] at hp
    cases hp
  rw [if_neg hlen] at hpost
  obtain ⟨hj, _⟩ := nuevoProducto_json_valido (nuevoId (leerProductos archivo)) ahora
    body s hs hv hfin
  have hpe : p = nuevoProducto (nuevoId (leerProductos archivo)) (trim s) ahora body := by
    rw [hpost, hj] at hp
    simpa using hp.symm
  have hmem : p ∈ leerProductos (postProductos ahora body archivo).2 := by
    rw [harch]
    simp [leerProductos]
  refine ⟨⟨s, hs, by rw [hpe]; rfl⟩, by rw [hpe]; rfl, by rw [hpe]; rfl, by rw [hpe]; rfl, ?_, ?_⟩
  · rw [harch]
    simp [leerProductos]
  · intro hnd
    rw [getProducto_eq, find_of_nodup _ hnd p hmem]
    have hpj : p.json = p := by rw [hpe]; exact hj
    simp only [hpj]

/-! ## The handlers: further properties -/

/-- C11 as stated fails. On the file with the records 1 and 2 where record
1 holds the number `Infinity` (the JSON text `1e999`), the update of record 2
with `precio` 5 alone rewrites record 1 with `null` in its place, so a record
other than the updated one changes. And the update of record 1 of a file of
plain records with the valid `precio` `Infinity` stores `null`, not the value
of the payload. -/
theorem C11_contraejemplo_otro_registro :
    validarProducto { cuerpoVacio with precio := some (.num (.fin 5 0)) } true = .ok [] ∧
    putProducto (some 2) { cuerpoVacio with precio := some (.num (.fin 5 0)) }
        (some [{ registro 1 with precio := some (.num (.inf false)) }, registro 2]) =
      (.actualizado { registro 2 with precio := some (.num (.fin 5 0)) },
        some [{ registro 1 with precio := some .nulo },
          { registro 2 with precio := some (.num (.fin 5 0)) }]) ∧
    ({ registro 1 with precio := some .nulo } : Producto) ≠
      { registro 1 with precio := some (.num (.inf false)) } ∧
    validarProducto { cuerpoVacio with precio := some (.num (.inf false)) } true = .ok [] ∧
    putProducto (some 1) { cuerpoVacio with precio := some (.num (.inf false)) }
        (some [registro 1]) =
      (.actualizado { registro 1 with precio := some .nulo },
        some [{ registro 1 with precio := some .nulo }]) :=
  ⟨rfl, rfl, by decide, rfl, rfl⟩

/-- C11, amended. On a file that holds no number that is not finite (writing
a record changes nothing), for every stored identifier and every valid update
payload whose `precio`, when present, is finite, the update answers with a
record `nuevo` and leaves the file equal to the old array with `nuevo` at the
position of the first record that has the identifier. `nuevo` has the `id`
and the `fecha_ingreso` of that record; its `nombre` is the trimmed `nombre`
of the payload when present and the prior one otherwise; its `precio`,
`descripcion` and `disponible` are those of the payload when present and the
prior ones otherwise. The length of the array and every record at another
position are unchanged. -/
theorem C11_update_parcial (id : Option Int) (body : Cuerpo) (archivo : Archivo)
    (hst : ∀ q ∈ leerProductos archivo, q.json = q)
    (hid : ∃ q ∈ leerProductos archivo, some q.id = id)
    (hv : validarProducto body true = .ok [])
    (hfin : ∀ x, body.precio = some (.num x) → x.esFinito) :
    ∃ i actual nuevo,
      (leerProductos archivo)[i]? = some actual ∧ some actual.id = id ∧
      (∀ j, j < i → ∀ q, (leerProductos archivo)[j]? = some q → some q.id ≠ id) ∧
      putProducto id body archivo =
        (.actualizado nuevo, some ((leerProductos archivo).set i nuevo)) ∧
      nuevo.id = actual.id ∧ nuevo.fecha_ingreso = actual.fecha_ingreso ∧
      (∀ v, body.nombre = some v → ∃ s, v = .str s ∧ nuevo.nombre = some (.str (trim s))) ∧
      (body.nombre = none → nuevo.nombre = actual.nombre) ∧
      (∀ v, body.precio = some v → nuevo.precio = some v) ∧
      (body.precio = none → nuevo.precio = actual.precio) ∧
      (∀ v, body.descripcion = some v → nuevo.descripcion = some v) ∧
      (body.descripcion = none → nuevo.descripcion = actual.descripcion) ∧
      (∀ v, body.disponible = some v → nuevo.disponible = some v) ∧
      (body.disponible = none → nuevo.disponible = actual.disponible) ∧
      (leerProductos (putProducto id body archivo).2).length =
        (leerProductos archivo).length ∧
      (leerProductos (putProducto id body archivo).2)[i]? = some nuevo ∧
      (∀ j, j ≠ i → (leerProductos (putProducto id body archivo).2)[j]? =
        (leerProductos archivo)[j]?) := by
  obtain ⟨i, actual, hi, ha, hactid⟩ := exists_findIdx _ id hid
  have hlt : i < (leerProductos archivo).length := (List.getElem?_eq_some.1 ha).1
  have hact : actual.json = actual := hst actual (List.getElem?_mem ha)
  have hnuevo := productoActualizado_json_estable actual body hact hv hfin
  have hput := putProducto_of_valido id body archivo i actual hi ha hv
  have hmap : ((leerProductos archivo).set i
      (productoActualizado actual (nombreRecortado body) body)).map Producto.json =
      (leerProductos archivo).set i (productoActualizado actual (nombreRecortado body) body) := by
    apply map_json_eq_self
    intro q hq
    rcases List.mem_or_eq_of_mem_set hq with h | h
    · exact hst q h
    · rw [h]; exact hnuevo
  have hput' : putProducto id body archivo =
      (.actualizado (productoActualizado actual (nombreRecortado body) body),
        some ((leerProductos archivo).set i
          (productoActualizado actual (nombreRecortado body) body))) := by
    rw [hput, hnuevo]
    unfold guardarProductos
    rw [hmap]
  have hfile : leerProductos (putProducto id body archivo).2 =
      (leerProductos archivo).set i (productoActualizado actual (nombreRecortado body) body) := by
    rw [hput']; rfl
  refine ⟨i, actual, productoActualizado actual (nombreRecortado body) body, ha, hactid,
    findIdx_primero _ _ _ hi, hput', rfl, rfl, ?_, ?_, ?_, ?_, ?_, ?_, ?_, ?_, ?_, ?_, ?_⟩
  · intro v hvn
    rcases (valido_update body hv).1 with h | ⟨s, hs, _⟩
    · rw [h] at hvn; cases hvn
    · rw [hs] at hvn
      cases hvn
      exact ⟨s, rfl, by simp [productoActualizado, nombreRecortado, hs]⟩
  · intro h
    simp [productoActualizado, nombreRecortado, h]
  · intro v h
    simp [productoActualizado, h]
  · intro h
    simp [productoActualizado, h]
  · intro v h
    simp [productoActualizado, h]
  · intro h
    simp [productoActualizado, h]
  · intro v h
    simp [productoActualizado, h]
  · intro h
    simp [productoActualizado, h]
  · rw [hfile, List.length_set]
  · rw [hfile, List.getElem?_set_self hlt]
  · intro j hj
    rw [hfile, List.getElem?_set_ne (Ne.symm hj)]

/-- C11, amended, on the file with the records 1 and 2 and the body that
holds `precio` 5 alone, sent to record 2. -/
theorem C11_update_parcial_witness :
    ∃ i actual nuevo,
      (leerProductos dosRegistros)[i]? = some actual ∧ some actual.id = some 2 ∧
      (∀ j, j < i → ∀ q, (leerProductos dosRegistros)[j]? = some q → some q.id ≠ some 2) ∧
      putProducto (some 2) cuerpoPrecioCinco dosRegistros =
        (.actualizado nuevo, some ((leerProductos dosRegistros).set i nuevo)) ∧
      nuevo.id = actual.id ∧ nuevo.fecha_ingreso = actual.fecha_ingreso ∧
      (∀ v, cuerpoPrecioCinco.nombre = some v → ∃ s, v = .str s ∧ nuevo.nombre = some (.str (trim s))) ∧
      (cuerpoPrecioCinco.nombre = none → nuevo.nombre = actual.nombre) ∧
      (∀ v, cuerpoPrecioCinco.precio = some v → nuevo.precio = some v) ∧
      (cuerpoPrecioCinco.precio = none → nuevo.precio = actual.precio) ∧
      (∀ v, cuerpoPrecioCinco.descripcion = some v → nuevo.descripcion = some v) ∧
      (cuerpoPrecioCinco.descripcion = none → nuevo.descripcion = actual.descripcion) ∧
      (∀ v, cuerpoPrecioCinco.disponible = some v → nuevo.disponible = some v) ∧
      (cuerpoPrecioCinco.disponible = none → nuevo.disponible = actual.disponible) ∧
      (leerProductos (putProducto (some 2) cuerpoPrecioCinco dosRegistros).2).length =
        (leerProductos dosRegistros).length ∧
      (leerProductos (putProducto (some 2) cuerpoPrecioCinco dosRegistros).2)[i]? = some nuevo ∧
      (∀ j, j ≠ i → (leerProductos (putProducto (some 2) cuerpoPrecioCinco dosRegistros).2)[j]? =
        (leerProductos dosRegistros)[j]?) :=
  C11_update_parcial (some 2) cuerpoPrecioCinco dosRegistros (by decide)
    ⟨registro 2, by decide, rfl⟩ rfl
    (by
      intro x hx
      cases hx
      trivial)

/-- C12. A create whose payload draws at least one violation answers 400 with
the whole list of violations and leaves the file as it was; so does an update
of a stored identifier whose payload draws at least one violation; an update
and a delete of an identifier that no record has answer 404 and leave the
file as it was. More generally a create that is not answered 201, an update
that is not answered with the updated record and a delete that is not
answered with the removed record leave the file as it was: no write is
performed. -/
theorem C12_todo_o_nada (archivo : Archivo) :
    (∀ ahora body errs, validarProducto body false = .ok errs → errs ≠ [] →
      postProductos ahora body archivo = (.datosInvalidos errs, archivo)) ∧
    (∀ id body errs, (∃ q ∈ leerProductos archivo, some q.id = id) →
      validarProducto body true = .ok errs → errs ≠ [] →
      putProducto id body archivo = (.datosInvalidos errs, archivo)) ∧
    (∀ id body, (∀ q ∈ leerProductos archivo, some q.id ≠ id) →
      putProducto id body archivo = (.noEncontrado, archivo)) ∧
    (∀ id, (∀ q ∈ leerProductos archivo, some q.id ≠ id) →
      deleteProducto id archivo = (.noEncontrado, archivo)) ∧
    (∀ ahora body, (∀ p, (postProductos ahora body archivo).1 ≠ .creado p) →
      (postProductos ahora body archivo).2 = archivo) ∧
    (∀ id body, (∀ p, (putProducto id body archivo).1 ≠ .actualizado p) →
      (putProducto id body archivo).2 = archivo) ∧
    (∀ id, (∀ p, (deleteProducto id archivo).1 ≠ .eliminado p) →
      (deleteProducto id archivo).2 = archivo) :=
  ⟨fun ahora body errs hv hne => postProductos_datosInvalidos ahora body archivo errs hv hne,
    fun id body errs h hv hne => putProducto_datosInvalidos id body archivo errs h hv hne,
    fun id body h => putProducto_noEncontrado id body archivo h,
    fun id h => deleteProducto_noEncontrado id archivo h,
    fun ahora body h => postProductos_sin_escritura ahora body archivo h,
    fun id body h => putProducto_sin_escritura id body archivo h,
    fun id h => deleteProducto_sin_escritura id archivo h⟩

/-- C12 on the file with the records 1 and 2: the empty body sent to create,
a body with `precio` 0 sent to update record 2, and an update and a delete of
the identifier 7 all leave the file as it was. -/
theorem C12_todo_o_nada_witness :
    postProductos unaFecha cuerpoVacio (some [registro 1, registro 2]) =
      (.datosInvalidos [msgNombreObligatorio, msgPrecioObligatorio, msgDescripcionObligatoria],
        some [registro 1, registro 2]) ∧
    putProducto (some 2) (cuerpoCon (.num (.fin 0 0)) diezLetras)
        (some [registro 1, registro 2]) =
      (.datosInvalidos [msgPrecioInvalido], some [registro 1, registro 2]) ∧
    putProducto (some 7) cuerpoPen (some [registro 1, registro 2]) =
      (.noEncontrado, some [registro 1, registro 2]) ∧
    deleteProducto (some 7) (some [registro 1, registro 2]) =
      (.noEncontrado, some [registro 1, registro 2]) :=
  ⟨(C12_todo_o_nada (some [registro 1, registro 2])).1 unaFecha cuerpoVacio _ rfl (by decide),
    (C12_todo_o_nada (some [registro 1, registro 2])).2.1 (some 2)
      (cuerpoCon (.num (.fin 0 0)) diezLetras) _ ⟨registro 2, by decide, rfl⟩ rfl (by decide),
    (C12_todo_o_nada (some [registro 1, registro 2])).2.2.1 (some 7) cuerpoPen (by decide),
    (C12_todo_o_nada (some [registro 1, registro 2])).2.2.2.1 (some 7) (by decide)⟩

/-- C13 (where the code departs from it). The body with `precio` `Infinity`
passes the validator, and the create stores the record with `precio` `null`,
on which the validator reports the price violation: from the missing file,
where every stored record passes, a successful create leaves a record that
does not. The same happens when record 1 of a file of valid records is
updated with that `precio`. -/
theorem C13_registro_invalido :
    validarProducto cuerpoInfinito false = .ok [] ∧
    postProductos unaFecha cuerpoInfinito none =
      (.creado (registroNulo 1), some [registroNulo 1]) ∧
    validarProducto (registroNulo 1).cuerpo false = .ok [msgPrecioInvalido] ∧
    validarProducto (registro 1).cuerpo false = .ok [] ∧
    validarProducto { cuerpoVacio with precio := some (.num (.inf false)) } true = .ok [] ∧
    putProducto (some 1) { cuerpoVacio with precio := some (.num (.inf false)) }
        (some [registro 1]) =
      (.actualizado { registro 1 with precio := some .nulo },
        some [{ registro 1 with precio := some .nulo }]) ∧
    validarProducto ({ registro 1 with precio := some .nulo } : Producto).cuerpo false =
      .ok [msgPrecioInvalido] :=
  ⟨rfl, rfl, rfl, rfl, rfl, rfl, rfl⟩

/-- C14 as stated fails: on the file with the records 1 and 2 (distinct
identifiers) where record 1 holds the number `Infinity` (the JSON text
`1e999`), the delete of record 2 rewrites record 1 with `null` in its place,
so the content of the remaining record is not preserved. -/
theorem C14_contraejemplo_contenido :
    (ids (some [{ registro 1 with precio := some (.num (.inf false)) }, registro 2])).Nodup ∧
    deleteProducto (some 2)
        (some [{ registro 1 with precio := some (.num (.inf false)) }, registro 2]) =
      (.eliminado (registro 2), some [{ registro 1 with precio := some .nulo }]) ∧
    ({ registro 1 with precio := some .nulo } : Producto) ≠
      { registro 1 with precio := some (.num (.inf false)) } :=
  ⟨by decide, rfl, by decide⟩

/-- C14, amended. On a file with pairwise distinct identifiers, the delete of
a stored identifier `m` answers with the record `q` that has it, as
`JSON.stringify` writes it, and leaves the file with the other records, in
their order, each as `JSON.stringify` writes it: one record fewer. A get of
`m` on that file answers 404. When the file holds no number that is not
finite, so that writing a record changes nothing, the answer is `q` itself
and the file holds exactly the other records, unchanged. -/
theorem C14_delete (archivo : Archivo) (m : Int)
    (hnd : (ids archivo).Nodup) (hm : m ∈ ids archivo) :
    ∃ q, q ∈ leerProductos archivo ∧ q.id = m ∧
      (deleteProducto (some m) archivo).1 = .eliminado q.json ∧
      leerProductos (deleteProducto (some m) archivo).2 =
        ((leerProductos archivo).filter (fun p => decide (p.id ≠ m))).map Producto.json ∧
      (leerProductos (deleteProducto (some m) archivo).2).length + 1 =
        (leerProductos archivo).length ∧
      getProducto (some m) (deleteProducto (some m) archivo).2 =
        (.noEncontrado, (deleteProducto (some m) archivo).2) ∧
      ((∀ p ∈ leerProductos archivo, p.json = p) →
        (deleteProducto (some m) archivo).1 = .eliminado q ∧
        leerProductos (deleteProducto (some m) archivo).2 =
          (leerProductos archivo).filter (fun p => decide (p.id ≠ m))) := by
  obtain ⟨q, hq, hqid, hdel⟩ := deleteProducto_of_nodup archivo m hnd hm
  have hfile : leerProductos (deleteProducto (some m) archivo).2 =
      ((leerProductos archivo).filter (fun p => decide (p.id ≠ m))).map Producto.json := by
    rw [hdel]; rfl
  refine ⟨q, hq, hqid, by rw [hdel], hfile, ?_, ?_, fun hst => ⟨?_, ?_⟩⟩
  · rw [hfile, List.length_map]
    exact length_filter_ne _ m hnd hm
  · apply getProducto_noEncontrado
    intro p hp
    rw [hfile] at hp
    simp only [List.mem_map, List.mem_filter, decide_eq_true_eq] at hp
    obtain ⟨p', ⟨_, hne⟩, rfl⟩ := hp
    simpa using hne
  · rw [hdel, hst q hq]
  · rw [hfile]
    apply map_json_eq_self
    intro p hp
    exact hst p (List.mem_of_mem_filter hp)

/-- C14, amended, on the file with the records 1, 2 and 3: the delete of 2
answers with record 2 and leaves the records 1 and 3, and a get of 2 then
answers 404. -/
theorem C14_delete_witness :
    ∃ q, q ∈ leerProductos (some [registro 1, registro 2, registro 3]) ∧ q.id = 2 ∧
      (deleteProducto (some 2) (some [registro 1, registro 2, registro 3])).1 =
        .eliminado q ∧
      leerProductos (deleteProducto (some 2) (some [registro 1, registro 2, registro 3])).2 =
        [registro 1, registro 3] ∧
      getProducto (some 2) (deleteProducto (some 2) (some [registro 1, registro 2, registro 3])).2 =
        (.noEncontrado, (deleteProducto (some 2) (some [registro 1, registro 2, registro 3])).2) := by
  obtain ⟨q, hq, hid, _, _, _, hget, hst⟩ :=
    C14_delete (some [registro 1, registro 2, registro 3]) 2 (by decide) (by decide)
  exact ⟨q, hq, hid, (hst (by decide)).1, (hst (by decide)).2, hget⟩

/-- C15. An update of an identifier that no record has answers 404 whatever
the payload, valid or not, and even when validating it would throw: the
validator is not run. An update answers 400 only when a record has the
identifier and the validator returns a non-empty list, which is the list in
the response. -/
theorem C15_existencia_antes_que_validez (id : Option Int) (body : Cuerpo)
    (archivo : Archivo) :
    ((∀ q ∈ leerProductos archivo, some q.id ≠ id) →
      putProducto id body archivo = (.noEncontrado, archivo) ∧
      ∀ errs, (putProducto id body archivo).1 ≠ .datosInvalidos errs) ∧
    (∀ errs, (putProducto id body archivo).1 = .datosInvalidos errs →
      (∃ q ∈ leerProductos archivo, some q.id = id) ∧
      validarProducto body true = .ok errs ∧ errs ≠ []) := by
  refine ⟨fun h => ?_, fun errs h => putProducto_datosInvalidos_inv id body archivo errs h⟩
  have h404 := putProducto_noEncontrado id body archivo h
  refine ⟨h404, fun errs => ?_⟩
  rw [h404]
  simp

/-- C15 on the file with the record 1: updates of the identifier 7 with a
body that draws a violation, and with a body on which the validator throws,
answer 404; the update of record 1 with the first body answers 400. -/
theorem C15_existencia_antes_que_validez_witness :
    putProducto (some 7) (cuerpoCon (.num (.fin 0 0)) diezLetras) (some [registro 1]) =
      (.noEncontrado, some [registro 1]) ∧
    putProducto (some 7) { cuerpoVacio with nombre := some (.num (.fin 5 0)) }
        (some [registro 1]) = (.noEncontrado, some [registro 1]) ∧
    ((∃ q ∈ leerProductos (some [registro 1]), some q.id = some 1) ∧
      validarProducto (cuerpoCon (.num (.fin 0 0)) diezLetras) true = .ok [msgPrecioInvalido] ∧
      [msgPrecioInvalido] ≠ []) :=
  ⟨((C15_existencia_antes_que_validez (some 7) (cuerpoCon (.num (.fin 0 0)) diezLetras)
      (some [registro 1])).1 (by decide)).1,
    ((C15_existencia_antes_que_validez (some 7)
      { cuerpoVacio with nombre := some (.num (.fin 5 0)) } (some [registro 1])).1
        (by decide)).1,
    (C15_existencia_antes_que_validez (some 1) (cuerpoCon (.num (.fin 0 0)) diezLetras)
      (some [registro 1])).2 [msgPrecioInvalido] rfl⟩

/-- C16 (where the code departs from it). The scenario holds: creating
`nombre` " Pen ", `precio` 1.5, `descripcion` "Blue ink pen" on the missing
file stores `nombre` "Pen", `disponible` `true` and the identifier 1, with
`precio` and `descripcion` as sent, and the get of 1 returns that record. But
the valid body with `precio` `Infinity` is stored, and returned, with `precio`
`null`, not with the value of the payload. -/
theorem C16_precio_no_literal :
    postProductos unaFecha cuerpoPen none =
      (.creado (registro 1), some [registro 1]) ∧
    (registro 1).nombre = some (.str (cadena "Pen")) ∧
    (registro 1).precio = cuerpoPen.precio ∧
    (registro 1).descripcion = cuerpoPen.descripcion ∧
    (registro 1).disponible = some (.bool true) ∧
    getProducto (some 1) (some [registro 1]) = (.producto (registro 1), some [registro 1]) ∧
    validarProducto cuerpoInfinito false = .ok [] ∧
    postProductos unaFecha cuerpoInfinito none =
      (.creado (registroNulo 1), some [registroNulo 1]) ∧
    (registroNulo 1).precio = some .nulo ∧
    cuerpoInfinito.precio = some (.num (.inf false)) ∧
    getProducto (some 1) (some [registroNulo 1]) =
      (.producto (registroNulo 1), some [registroNulo 1]) :=
  ⟨rfl, rfl, rfl, rfl, rfl, rfl, rfl, rfl, rfl, rfl, rfl⟩

/-- C17 as stated fails for `list-all`: on a file whose record holds the
number `Infinity` (the JSON text `1e999`), the response of `GET /productos`
holds `null` in its place, so it is not the collection unchanged. -/
theorem C17_contraejemplo_lista :
    (getProductos (some [{ registro 1 with precio := some (.num (.inf false)) }])).1 =
      .lista [{ registro 1 with precio := some .nulo }] ∧
    leerProductos (some [{ registro 1 with precio := some (.num (.inf false)) }]) ≠
      [{ registro 1 with precio := some .nulo }] :=
  ⟨rfl, by decide⟩

/-- C17, amended. `GET /productos` answers with the records of the file, in
the order of the file, each as `JSON.stringify` writes it, and
`GET /productos/disponibles` answers with exactly those records of that
answer whose `disponible` is `true`, in the same relative order; neither
changes the file. When the file holds no number that is not finite, so that
writing a record changes nothing, the first answer is the collection itself
and the second is its records whose `disponible` is `true`. -/
theorem C17_listas (archivo : Archivo) :
    getProductos archivo = (.lista ((leerProductos archivo).map Producto.json), archivo) ∧
    getDisponibles archivo =
      (.lista (((leerProductos archivo).map Producto.json).filter
        (fun p => p.disponible == some (.bool true))), archivo) ∧
    (((leerProductos archivo).map Producto.json).filter
      (fun p => p.disponible == some (.bool true))).Sublist
        ((leerProductos archivo).map Producto.json) ∧
    ((∀ q ∈ leerProductos archivo, q.json = q) →
      getProductos archivo = (.lista (leerProductos archivo), archivo) ∧
      getDisponibles archivo =
        (.lista ((leerProductos archivo).filter
          (fun p => p.disponible == some (.bool true))), archivo)) := by
  have hfil : ((leerProductos archivo).map Producto.json).filter
      (fun p => p.disponible == some (.bool true)) =
      ((leerProductos archivo).filter
        (fun p => p.disponible == some (.bool true))).map Producto.json := by
    rw [List.filter_map]
    congr 1
    apply List.filter_congr
    intro q _
    exact json_eq_true_iff q.disponible
  refine ⟨getProductos_eq archivo, by rw [hfil]; exact getDisponibles_eq archivo,
    List.filter_sublist _, fun hst => ?_⟩
  constructor
  · rw [getProductos_eq, map_json_eq_self _ hst]
  · rw [getDisponibles_eq, map_json_eq_self]
    intro q hq
    exact hst q (List.mem_of_mem_filter hq)

/-- C17, amended, on the file with the records 1 and 2, the second one not
available: `list-all` answers with both records, `list-available` with the
first. -/
theorem C17_listas_witness :
    getProductos (some [registro 1, { registro 2 with disponible := some (.bool false) }]) =
      (.lista [registro 1, { registro 2 with disponible := some (.bool false) }],
        some [registro 1, { registro 2 with disponible := some (.bool false) }]) ∧
    getDisponibles (some [registro 1, { registro 2 with disponible := some (.bool false) }]) =
      (.lista [registro 1],
        some [registro 1, { registro 2 with disponible := some (.bool false) }]) :=
  (C17_listas (some [registro 1, { registro 2 with disponible := some (.bool false) }])).2.2.2
    (by decide)

/-- C18 as stated fails: "12abc" and "1.5" are not decimal numerals of
integers, yet `parseInt` reads 12 and 1 from them, so on files that hold the
records 12 and 1 the get, the update and the delete find a record instead of
answering 404. -/
theorem C18_contraejemplo_prefijo_numerico :
    esNumeralDecimal (cadena "12abc") = false ∧
    parseInt (cadena "12abc") = some 12 ∧
    getProducto (parseInt (cadena "12abc")) (some [registro 12]) =
      (.producto (registro 12), some [registro 12]) ∧
    esNumeralDecimal (cadena "1.5") = false ∧
    parseInt (cadena "1.5") = some 1 ∧
    deleteProducto (parseInt (cadena "1.5")) (some [registro 1]) =
      (.eliminado (registro 1), some []) ∧
    (putProducto (parseInt (cadena "1.5")) cuerpoVacio (some [registro 1])).1 =
      .actualizado (registro 1) :=
  ⟨rfl, rfl, rfl, rfl, rfl, rfl, rfl⟩

/-- C18, amended. When the path parameter, after its leading white space and
an optional sign, does not start with a decimal digit (it is empty there, or
starts with another character), `parseInt` gives `NaN`, which equals the
identifier of no record: the get, the update and the delete answer 404 and
leave the file as it was, whatever the file holds. -/
theorem C18_id_no_numerico (s : Cadena) (archivo : Archivo) (body : Cuerpo)
    (h : ∀ c r, trasSigno s = c :: r → digito c = none) :
    parseInt s = none ∧
    getProducto (parseInt s) archivo = (.noEncontrado, archivo) ∧
    putProducto (parseInt s) body archivo = (.noEncontrado, archivo) ∧
    deleteProducto (parseInt s) archivo = (.noEncontrado, archivo) := by
  have hp := parseInt_eq_none s h
  rw [hp]
  exact ⟨rfl, handlers_none archivo body⟩

/-- C18, amended, on the path parameter "abc" and the file with the records
1 and 2. -/
theorem C18_id_no_numerico_witness :
    parseInt (cadena "abc") = none ∧
    getProducto (parseInt (cadena "abc")) (some [registro 1, registro 2]) =
      (.noEncontrado, some [registro 1, registro 2]) ∧
    putProducto (parseInt (cadena "abc")) cuerpoPen (some [registro 1, registro 2]) =
      (.noEncontrado, some [registro 1, registro 2]) ∧
    deleteProducto (parseInt (cadena "abc")) (some [registro 1, registro 2]) =
      (.noEncontrado, some [registro 1, registro 2]) :=
  C18_id_no_numerico (cadena "abc") (some [registro 1, registro 2]) cuerpoPen
    (by
      intro c r hcr
      have h97 : trasSigno (cadena "abc") = 97 :: cadena "bc" := by decide
      rw [h97] at hcr
      cases hcr
      decide)

/-- C19. Whether `validarProducto` throws does not depend on
`esActualizacion`. When it does not throw, the list it returns for an update
is a sublist (same messages, same relative order) of the list it returns for
a create; so a payload accepted for create is accepted for update. -/
theorem C19_update_no_mas_estricto (p : Cuerpo)
    (h : ∃ e errs, validarProducto p e = .ok errs) :
    ∃ errsCreate errsUpdate,
      validarProducto p false = .ok errsCreate ∧
      validarProducto p true = .ok errsUpdate ∧
      errsUpdate.Sublist errsCreate ∧
      (errsCreate = [] → errsUpdate = []) := by
  have hn : nombreLanza p.nombre = false := by
    obtain ⟨e, errs, he⟩ := h
    rw [validarProducto_eq] at he
    by_contra hc
    simp only [Bool.not_eq_false] at hc
    rw [hc] at he
    simp at he
  have hsub : (erroresNombre p.nombre true ++ erroresPrecio p.precio true ++
      erroresDescripcion p.descripcion true ++ erroresDisponible p.disponible).Sublist
      (erroresNombre p.nombre false ++ erroresPrecio p.precio false ++
      erroresDescripcion p.descripcion false ++ erroresDisponible p.disponible) :=
    (((erroresNombre_sublist _).append (erroresPrecio_sublist _)).append
      (erroresDescripcion_sublist _)).append (List.Sublist.refl _)
  refine ⟨_, _, by rw [validarProducto_eq, hn]; rfl, by rw [validarProducto_eq, hn]; rfl,
    hsub, fun h0 => ?_⟩
  rw [h0] at hsub
  exact List.eq_nil_of_sublist_nil hsub

/-- C19 on the body that holds only a too short description: the update list
holds that violation alone, the create list holds it among the violations for
the missing `nombre` and `precio`. -/
theorem C19_update_no_mas_estricto_witness :
    ∃ errsCreate errsUpdate,
      validarProducto { cuerpoVacio with descripcion := some (.str nueveLetras) } false =
        .ok errsCreate ∧
      validarProducto { cuerpoVacio with descripcion := some (.str nueveLetras) } true =
        .ok errsUpdate ∧
      errsUpdate.Sublist errsCreate ∧
      (errsCreate = [] → errsUpdate = []) :=
  C19_update_no_mas_estricto { cuerpoVacio with descripcion := some (.str nueveLetras) }
    ⟨true, [msgDescripcionCorta], rfl⟩

/-- C20. On every file, for every stored identifier and every valid update
payload, the update answers with the updated record, and the same update
applied again to the file it left answers with the same record and leaves the
same file; trimming a trimmed string changes nothing. -/
theorem C20_update_idempotente (id : Option Int) (body : Cuerpo) (archivo : Archivo)
    (hid : ∃ q ∈ leerProductos archivo, some q.id = id)
    (hv : validarProducto body true = .ok []) :
    (∃ p, (putProducto id body archivo).1 = .actualizado p ∧
      putProducto id body (putProducto id body archivo).2 =
        (.actualizado p, (putProducto id body archivo).2)) ∧
    ∀ s, trim (trim s) = trim s := by
  refine ⟨?_, trim_trim⟩
  obtain ⟨i, actual, hi, ha, _⟩ := exists_findIdx _ id hid
  have h1 := putProducto_of_valido id body archivo i actual hi ha hv
  have hlt : i < (leerProductos archivo).length := (List.getElem?_eq_some.1 ha).1
  have hl1 : leerProductos (putProducto id body archivo).2 =
      ((leerProductos archivo).set i
        (productoActualizado actual (nombreRecortado body) body)).map Producto.json := by
    rw [h1]; rfl
  have hi1 : (leerProductos (putProducto id body archivo).2).findIdx?
      (fun p => some p.id == id) = some i := by
    rw [hl1, findIdx_map_json,
      findIdx_set _ _ _ actual (productoActualizado actual (nombreRecortado body) body) ha rfl,
      hi]
  have ha1 : (leerProductos (putProducto id body archivo).2)[i]? =
      some (productoActualizado actual (nombreRecortado body) body).json := by
    rw [hl1, List.getElem?_map, List.getElem?_set_self hlt]
    rfl
  have h2 := putProducto_of_valido id body (putProducto id body archivo).2 i _ hi1 ha1 hv
  refine ⟨_, by rw [h1], ?_⟩
  rw [h2, productoActualizado_json_json]
  congr 1
  have hfile : (putProducto id body archivo).2 =
      some (leerProductos (putProducto id body archivo).2) := by
    rw [h1]; rfl
  have hmap : (leerProductos (putProducto id body archivo).2).map Producto.json =
      leerProductos (putProducto id body archivo).2 := by
    rw [hl1, List.map_map]
    apply List.map_congr_left
    intro q _
    exact producto_json_json q
  conv_rhs => rw [hfile]
  unfold guardarProductos
  rw [List.map_set, productoActualizado_json_json, hmap, set_of_getElem _ _ _ ha1]

/-- C20 on the file with the records 1 and 2 and the scenario body sent to
record 2: the second update changes neither the answer nor the file. -/
theorem C20_update_idempotente_witness :
    (∃ p, (putProducto (some 2) cuerpoPen (some [registro 1, registro 2])).1 = .actualizado p ∧
      putProducto (some 2) cuerpoPen
          (putProducto (some 2) cuerpoPen (some [registro 1, registro 2])).2 =
        (.actualizado p, (putProducto (some 2) cuerpoPen (some [registro 1, registro 2])).2)) ∧
    ∀ s, trim (trim s) = trim s :=
  C20_update_idempotente (some 2) cuerpoPen (some [registro 1, registro 2])
    ⟨registro 2, by decide, rfl⟩ rfl

end Tarea2
